import Mathlib

/-!
Verification of the RTP audio FEC reassembly queue (src/src/RtpAudioQueue.c).

The C file is embedded shallowly: machine integers become Nat with explicit
reductions modulo 2^16 / 2^32 / 2^64 at the points where the C types force a
reduction; the doubly linked block list becomes a Lean List ordered head
first (the C list is kept sorted, head = oldest); heap pointers become list
indices.  The Reed-Solomon codec is an external collaborator of the C file
(it lives in a separate library); only its success/failure status is
observable to the queue logic, and it is threaded through the environment as
rsOk.  Shard payload bytes (written by memcpy and by the codec) are opaque
to every claim and are not modelled; the RTP headers of the stored data
shards, which the queue itself reads and synthesises, are modelled in full.
The free-block cache reuses allocations whose contents are fully
re-initialised on reuse, so it has no observable effect and is not modelled;
LC_ASSERT and Limelog are no-ops in release builds and are dropped.
FEC_VALIDATION_MODE is only compiled under LC_DEBUG and is likewise dropped
(release semantics are modelled).
-/

namespace RtpAudio

/-! ## Machine integer helpers -/

/-- Truncation to uint16_t. -/
def U16 (n : Nat) : Nat := n % 65536

/-- Truncation to uint32_t. -/
def U32 (n : Nat) : Nat := n % 4294967296

/-- Truncation to uint64_t. -/
def U64 (n : Nat) : Nat := n % 18446744073709551616

/-- uint16_t addition. -/
def add16 (a b : Nat) : Nat := (a + b) % 65536

/-- uint16_t subtraction (two's complement wraparound). -/
def sub16 (a b : Nat) : Nat := (U16 a + (65536 - U16 b)) % 65536

/-- uint32_t subtraction. -/
def sub32 (a b : Nat) : Nat := (U32 a + (4294967296 - U32 b)) % 4294967296

/-- uint64_t subtraction. -/
def sub64 (a b : Nat) : Nat := (U64 a + (18446744073709551616 - U64 b)) % 18446744073709551616

/-- isBefore16(a, b) of Limelight: (int16_t)(a - b) < 0, i.e. the 16-bit
wraparound difference lands in the upper half. -/
def isBefore16 (a b : Nat) : Bool := 32768 ≤ sub16 a b

/-! ## Constants

RTPA_DATA_SHARDS and RTPA_FEC_SHARDS live in a sibling header
(Limelight-internal.h) that is not part of the supplied source.  Modelled
from the spec: the spec fixes D = 4 data shards and P = 2 parity shards
(T = 6), and requires them to be compile-time constants. -/

def RTPA_DATA_SHARDS : Nat := 4

def RTPA_FEC_SHARDS : Nat := 2

def RTPA_TOTAL_SHARDS : Nat := RTPA_DATA_SHARDS + RTPA_FEC_SHARDS

def RTP_PAYLOAD_TYPE_AUDIO : Nat := 97

def RTP_PAYLOAD_TYPE_FEC : Nat := 127

/-- sizeof(RTP_PACKET): the 12-byte RTP header. -/
def RTP_PACKET_SIZE : Nat := 12

/-- sizeof(AUDIO_FEC_HEADER): the 12-byte FEC header. -/
def AUDIO_FEC_HEADER_SIZE : Nat := 12

/-! ## Data model -/

/-- The RTP header of a packet (payload bytes are external to the model). -/
structure RTP_PACKET where
  header : Nat
  packetType : Nat
  sequenceNumber : Nat
  timestamp : Nat
  ssrc : Nat
deriving DecidableEq, Repr

/-- The audio FEC header carried by parity packets, with multi-byte fields
already byteswapped from big-endian wire order. -/
structure AUDIO_FEC_HEADER where
  payloadType : Nat
  fecShardIndex : Nat
  baseSequenceNumber : Nat
  baseTimestamp : Nat
  ssrc : Nat
deriving DecidableEq, Repr

/-- One inbound packet handed to RtpaAddPacket: its RTP header, the FEC
header that follows it when packetType is the FEC payload type, and the
uint16_t wire length of the whole packet. -/
structure PacketIn where
  rtp : RTP_PACKET
  fec : AUDIO_FEC_HEADER
  length : Nat
deriving DecidableEq, Repr

/-- Field bounds imposed by the C wire types (uint8/uint16/uint32 struct
fields and the uint16_t length parameter). -/
def PacketWf (p : PacketIn) : Prop :=
  p.rtp.header < 256 ∧ p.rtp.packetType < 256 ∧
  p.rtp.sequenceNumber < 65536 ∧ p.rtp.timestamp < 4294967296 ∧
  p.rtp.ssrc < 4294967296 ∧ p.length < 65536 ∧
  p.fec.payloadType < 256 ∧ p.fec.fecShardIndex < 256 ∧
  p.fec.baseSequenceNumber < 65536 ∧ p.fec.baseTimestamp < 4294967296 ∧
  p.fec.ssrc < 4294967296

instance (p : PacketIn) : Decidable (PacketWf p) := by
  unfold PacketWf; infer_instance

/-- One in-flight FEC block (RTPA_FEC_BLOCK).  prev/next pointers are
replaced by the position in the queue's list; dataPackets holds the RTP
headers of the per-index data shard buffers; marks is the T-entry presence
array (1 = missing, 0 = present). -/
structure RTPA_FEC_BLOCK where
  blockSize : Nat
  queueTimeMs : Nat
  fecPayloadType : Nat
  baseSequenceNumber : Nat
  baseTimestamp : Nat
  ssrc : Nat
  dataPackets : List RTP_PACKET
  marks : List Nat
  dataShardsReceived : Nat
  fecShardsReceived : Nat
  nextDataPacketIndex : Nat
  fullyReassembled : Bool
  allowDiscontinuity : Bool
deriving DecidableEq, Repr

/-- The queue state (RTP_AUDIO_QUEUE).  blockList is the sorted block list,
head first; the free-block cache and the Reed-Solomon handle carry no
observable state and are omitted. -/
structure RTP_AUDIO_QUEUE where
  blockList : List RTPA_FEC_BLOCK
  oldestRtpBaseSequenceNumber : Nat
  nextRtpSequenceNumber : Nat
  lastOosSequenceNumber : Nat
  synchronizing : Bool
  receivedOosData : Bool
  incompatibleServer : Bool
deriving DecidableEq, Repr

/-- Per-call environment: the PltGetMillis() reading, the session constants
AudioPacketDuration and RTPQ_OOS_WAIT_TIME_MS (both configured outside this
file), and the success status of the external reed_solomon_reconstruct
primitive. -/
structure Env where
  nowMs : Nat
  audioPacketDuration : Nat
  oosWaitTimeMs : Nat
  rsOk : Bool
deriving DecidableEq, Repr

/-- Value read from an uninitialised data-shard buffer (the C code never
reads one while its mark is set on intended paths). -/
def defaultRtpPacket : RTP_PACKET :=
  { header := 0, packetType := 0, sequenceNumber := 0, timestamp := 0, ssrc := 0 }

/-- marks[i] of a block; out-of-range reads (which the C code can only make
in broken states) are modelled as the missing value 1. -/
def getMark (b : RTPA_FEC_BLOCK) (i : Nat) : Nat := b.marks.getD i 1

/-! ## Initialization and cleanup -/

/-- State established by RtpaInitializeQueue: zeroed, synchronizing. -/
def RtpaInitializeQueue : RTP_AUDIO_QUEUE :=
  { blockList := [], oldestRtpBaseSequenceNumber := 0, nextRtpSequenceNumber := 0,
    lastOosSequenceNumber := 0, synchronizing := true,
    receivedOosData := false, incompatibleServer := false }

/-- RtpaCleanupQueue drains and frees both lists. -/
def RtpaCleanupQueue (q : RTP_AUDIO_QUEUE) : RTP_AUDIO_QUEUE :=
  { q with blockList := [] }

/-! ## Block lookup (getFecBlockForRtpPacket) -/

/-- The out-of-sequence tracking performed at the top of the audio-data
branch of getFecBlockForRtpPacket (lines 196-209). -/
def oosUpdate (q : RTP_AUDIO_QUEUE) (seq : Nat) : RTP_AUDIO_QUEUE :=
  if !q.synchronizing && isBefore16 seq q.oldestRtpBaseSequenceNumber then
    { q with lastOosSequenceNumber := U16 seq, receivedOosData := true }
  else if q.receivedOosData &&
      isBefore16 q.oldestRtpBaseSequenceNumber q.lastOosSequenceNumber then
    { q with receivedOosData := false }
  else q

/-- oosUpdate runs exactly when the packet is audio data long enough to
carry an RTP header (the length check precedes it in the source). -/
def oosTrack (q : RTP_AUDIO_QUEUE) (p : PacketIn) : RTP_AUDIO_QUEUE :=
  if p.rtp.packetType == RTP_PAYLOAD_TYPE_AUDIO then
    if p.length < RTP_PACKET_SIZE then q else oosUpdate q p.rtp.sequenceNumber
  else q

/-- The FEC block identity derived from an inbound packet: the synthesised
FEC header for a data packet, or the wire FEC header for a parity packet.
none models the validation-failure early returns. -/
structure FEC_BLOCK_ID where
  payloadType : Nat
  baseSequenceNumber : Nat
  baseTimestamp : Nat
  ssrc : Nat
  blockSize : Nat
deriving DecidableEq, Repr

def deriveBlockId (apd : Nat) (p : PacketIn) : Option FEC_BLOCK_ID :=
  if p.rtp.packetType == RTP_PAYLOAD_TYPE_AUDIO then
    if p.length < RTP_PACKET_SIZE then none
    else
      let seq := U16 p.rtp.sequenceNumber
      let base := seq / RTPA_DATA_SHARDS * RTPA_DATA_SHARDS
      some { payloadType := p.rtp.packetType, baseSequenceNumber := base,
             baseTimestamp := sub32 p.rtp.timestamp ((seq - base) * apd),
             ssrc := U32 p.rtp.ssrc, blockSize := p.length - RTP_PACKET_SIZE }
  else if p.rtp.packetType == RTP_PAYLOAD_TYPE_FEC then
    if p.length < RTP_PACKET_SIZE + AUDIO_FEC_HEADER_SIZE then none
    else if RTPA_FEC_SHARDS ≤ p.fec.fecShardIndex then none
    else
      some { payloadType := p.fec.payloadType,
             baseSequenceNumber := U16 p.fec.baseSequenceNumber,
             baseTimestamp := U32 p.fec.baseTimestamp,
             ssrc := U32 p.fec.ssrc,
             blockSize := p.length - RTP_PACKET_SIZE - AUDIO_FEC_HEADER_SIZE }
  else none

/-- Result of walking the sorted block list for a base sequence number. -/
inductive FIND_RESULT where
  | mismatch : FIND_RESULT
  | completedDup : FIND_RESULT
  | found : Nat → FIND_RESULT
  | insertAt : Nat → FIND_RESULT
deriving DecidableEq, Repr

def bumpFind : FIND_RESULT → FIND_RESULT
  | .found i => .found (i + 1)
  | .insertAt i => .insertAt (i + 1)
  | r => r

/-- The list walk of getFecBlockForRtpPacket (lines 264-301): stop at a block
with the same base (checking blockSize compatibility and completion), or at
the first block the new base sorts before, else fall off the tail. -/
def findFecBlock (base blockSize : Nat) : List RTPA_FEC_BLOCK → FIND_RESULT
  | [] => .insertAt 0
  | b :: rest =>
    if U16 b.baseSequenceNumber == U16 base then
      if b.blockSize ≠ blockSize then .mismatch
      else if b.fullyReassembled then .completedDup
      else .found 0
    else if isBefore16 base b.baseSequenceNumber then .insertAt 0
    else bumpFind (findFecBlock base blockSize rest)

/-- A freshly allocated and initialised FEC block (lines 305-331): all marks
set (missing), counters zero, creation time stamped. -/
def newFecBlock (now : Nat) (id : FEC_BLOCK_ID) : RTPA_FEC_BLOCK :=
  { blockSize := id.blockSize, queueTimeMs := now,
    fecPayloadType := id.payloadType,
    baseSequenceNumber := id.baseSequenceNumber,
    baseTimestamp := id.baseTimestamp, ssrc := id.ssrc,
    dataPackets := List.replicate RTPA_DATA_SHARDS defaultRtpPacket,
    marks := List.replicate RTPA_TOTAL_SHARDS 1,
    dataShardsReceived := 0, fecShardsReceived := 0, nextDataPacketIndex := 0,
    fullyReassembled := false, allowDiscontinuity := false }

def insertBlockAt : List RTPA_FEC_BLOCK → Nat → RTPA_FEC_BLOCK → List RTPA_FEC_BLOCK
  | l, 0, b => b :: l
  | [], _ + 1, b => [b]
  | x :: xs, i + 1, b => x :: insertBlockAt xs i b

/-- The part of getFecBlockForRtpPacket after identity derivation (lines
250-366): synchronize on the first admissible packet, drop packets from
already-completed blocks, then find or create the target block. -/
def lookupBlock (now : Nat) (q1 : RTP_AUDIO_QUEUE) (id : FEC_BLOCK_ID) :
    RTP_AUDIO_QUEUE × Option Nat :=
  if q1.synchronizing && (q1.oldestRtpBaseSequenceNumber == 0) then
    ({ q1 with
        nextRtpSequenceNumber := add16 id.baseSequenceNumber RTPA_DATA_SHARDS,
        oldestRtpBaseSequenceNumber := add16 id.baseSequenceNumber RTPA_DATA_SHARDS },
     none)
  else if isBefore16 id.baseSequenceNumber q1.oldestRtpBaseSequenceNumber then
    (q1, none)
  else
    match findFecBlock id.baseSequenceNumber id.blockSize q1.blockList with
    | .mismatch => ({ q1 with incompatibleServer := true }, none)
    | .completedDup => (q1, none)
    | .found i => (q1, some i)
    | .insertAt i =>
      ({ q1 with blockList := insertBlockAt q1.blockList i (newFecBlock now id) },
       some i)

/-- getFecBlockForRtpPacket: validate and derive the block identity, track
out-of-sequence data, then look up or create the target block.  Returns
the updated queue and the index of the block (none models the NULL
return). -/
def getFecBlockForRtpPacket (env : Env) (q : RTP_AUDIO_QUEUE) (p : PacketIn) :
    RTP_AUDIO_QUEUE × Option Nat :=
  match deriveBlockId env.audioPacketDuration p with
  | none => (oosTrack q p, none)
  | some id => lookupBlock env.nowMs (oosTrack q p) id

/-! ## FEC recovery (completeFecBlock) -/

/-- The RTP header synthesised for a recovered data shard (lines 423-433). -/
def recoverDataPacket (apd : Nat) (b : RTPA_FEC_BLOCK) (i : Nat) : RTP_PACKET :=
  { header := 128, packetType := b.fecPayloadType,
    sequenceNumber := add16 b.baseSequenceNumber i,
    timestamp := U32 (b.baseTimestamp + i * apd), ssrc := b.ssrc }

/-- Effect of a successful reconstruction on the modelled state: every
missing data shard gets a synthesised RTP header and its mark cleared
(the D and T array bounds are fixed by the allocation). -/
def recoverBlock (apd : Nat) (b : RTPA_FEC_BLOCK) : RTPA_FEC_BLOCK :=
  { b with
    dataPackets := (List.range RTPA_DATA_SHARDS).map fun i =>
      if getMark b i ≠ 0 then recoverDataPacket apd b i
      else b.dataPackets.getD i defaultRtpPacket,
    marks := (List.range RTPA_TOTAL_SHARDS).map fun i =>
      if i < RTPA_DATA_SHARDS then 0 else getMark b i }

/-- completeFecBlock (release semantics): give up below the shard threshold;
with all data shards present succeed without touching the codec; otherwise
invoke reed_solomon_reconstruct (external; its status is env.rsOk) and on
success synthesise the missing RTP headers.  Returns the updated block, the
success flag, and the number of codec invocations (0 or 1). -/
def completeFecBlock (env : Env) (b : RTPA_FEC_BLOCK) : RTPA_FEC_BLOCK × Bool × Nat :=
  if b.dataShardsReceived + b.fecShardsReceived < RTPA_DATA_SHARDS then (b, false, 0)
  else if b.dataShardsReceived == RTPA_DATA_SHARDS then (b, true, 0)
  else if env.rsOk then (recoverBlock env.audioPacketDuration b, true, 1)
  else (b, false, 1)

/-! ## Queue predicates -/

/-- queueHasPacketReady.  The C comparison baseSequenceNumber +
nextDataPacketIndex == nextRtpSequenceNumber is carried out after integer
promotion, i.e. without 16-bit wraparound, and is modelled with exact Nat
addition. -/
def queueHasPacketReady (q : RTP_AUDIO_QUEUE) : Bool :=
  match q.blockList with
  | [] => false
  | h :: _ =>
    getMark h h.nextDataPacketIndex == 0 &&
    (U16 h.baseSequenceNumber + h.nextDataPacketIndex == U16 q.nextRtpSequenceNumber)

/-- enforceQueueConstraints: the head block is declared irrecoverable when
out-of-sequence data has not been seen lately, or when the whole block
duration (plus the OOS wait) has elapsed since the block was queued. -/
def enforceQueueConstraints (env : Env) (q : RTP_AUDIO_QUEUE) : Bool :=
  match q.blockList with
  | [] => false
  | h :: _ =>
    !q.receivedOosData ||
      decide (U32 (U32 (env.audioPacketDuration * RTPA_DATA_SHARDS) + env.oosWaitTimeMs) <
        sub64 env.nowMs h.queueTimeMs)

/-- freeFecBlockHead: unlink and free the head block, advance the oldest
admissible base past it, and leave the synchronizing state.  (The freed
block may also be cached for reuse; the cache is not observable.) -/
def freeFecBlockHead (q : RTP_AUDIO_QUEUE) : RTP_AUDIO_QUEUE :=
  match q.blockList with
  | [] => q
  | h :: t =>
    { q with blockList := t,
             oldestRtpBaseSequenceNumber := add16 h.baseSequenceNumber RTPA_DATA_SHARDS,
             synchronizing := false }

/-! ## RtpaAddPacket -/

inductive RTPQ_RET where
  | rejected : RTPQ_RET
  | handleNow : RTPQ_RET
  | packetReady : RTPQ_RET
deriving DecidableEq, Repr

/-- Result of RtpaAddPacket, with two ghost observations that do not feed
back into the state: the number of freeFecBlockHead calls made, and the
number of reed_solomon_reconstruct invocations. -/
structure ADD_OUT where
  q : RTP_AUDIO_QUEUE
  ret : RTPQ_RET
  freed : Nat
  rsCalls : Nat
deriving DecidableEq, Repr

def blockAt (l : List RTPA_FEC_BLOCK) (i : Nat) : RTPA_FEC_BLOCK :=
  l.getD i (newFecBlock 0 ⟨0, 0, 0, 0, 0⟩)

def setBlockAt (l : List RTPA_FEC_BLOCK) (i : Nat) (b : RTPA_FEC_BLOCK) :
    List RTPA_FEC_BLOCK :=
  l.set i b

/-- Admission of a data shard (lines 529-534): copy the packet in, clear the
mark, count it. -/
def storeDataShard (b : RTPA_FEC_BLOCK) (hdr : RTP_PACKET) (pos : Nat) : RTPA_FEC_BLOCK :=
  { b with dataPackets := b.dataPackets.set pos hdr,
           marks := b.marks.set pos 0,
           dataShardsReceived := b.dataShardsReceived + 1 }

/-- Admission of a parity shard (lines 568-572); the parity payload bytes
are external to the model. -/
def storeFecShard (b : RTPA_FEC_BLOCK) (j : Nat) : RTPA_FEC_BLOCK :=
  { b with marks := b.marks.set (RTPA_DATA_SHARDS + j) 0,
           fecShardsReceived := b.fecShardsReceived + 1 }

/-- The completion attempt of RtpaAddPacket (lines 586-589): run
completeFecBlock on block i and latch fullyReassembled on success.  Also
returns the ghost codec-invocation count. -/
def applyCompletion (env : Env) (q : RTP_AUDIO_QUEUE) (i : Nat) : RTP_AUDIO_QUEUE × Nat :=
  ({ q with blockList := (setBlockAt q.blockList i
      (if (completeFecBlock env (blockAt q.blockList i)).2.1 then
        { (completeFecBlock env (blockAt q.blockList i)).1 with fullyReassembled := true }
      else (completeFecBlock env (blockAt q.blockList i)).1)) },
   (completeFecBlock env (blockAt q.blockList i)).2.2)

/-- The state update on a constraint violation (lines 601-616): allow the
head block to emit with discontinuities and, when the next expected
sequence number lies in a fully missed block, jump it forward to the head
block's base.  (The jump test reads the unmodified nextRtpSequenceNumber
and the head's base, which the flag update does not change.) -/
def discontinuityQueueCons (q1 : RTP_AUDIO_QUEUE) (hd : RTPA_FEC_BLOCK)
    (t : List RTPA_FEC_BLOCK) : RTP_AUDIO_QUEUE :=
  if isBefore16 q1.nextRtpSequenceNumber hd.baseSequenceNumber then
    { q1 with blockList := { hd with allowDiscontinuity := true } :: t,
              nextRtpSequenceNumber := U16 hd.baseSequenceNumber }
  else
    { q1 with blockList := { hd with allowDiscontinuity := true } :: t }

def discontinuityQueue (q1 : RTP_AUDIO_QUEUE) : RTP_AUDIO_QUEUE :=
  match q1.blockList with
  | [] => q1
  | hd :: t => discontinuityQueueCons q1 hd t

/-- The tail of RtpaAddPacket after a non-fast-path admission into block i
(lines 586-622): attempt completion, report a ready packet, otherwise
enforce the queue constraints when the packet belonged to a block other
than the head (i ≠ 0 models the pointer comparison against blockHead). -/
def finishAddPacket (env : Env) (q : RTP_AUDIO_QUEUE) (i : Nat) : ADD_OUT :=
  if queueHasPacketReady (applyCompletion env q i).1 then
    ⟨(applyCompletion env q i).1, .packetReady, 0, (applyCompletion env q i).2⟩
  else if i != 0 && enforceQueueConstraints env (applyCompletion env q i).1 then
    ⟨discontinuityQueue (applyCompletion env q i).1, .packetReady, 0,
      (applyCompletion env q i).2⟩
  else
    ⟨(applyCompletion env q i).1,
      if queueHasPacketReady (applyCompletion env q i).1 then .packetReady else .rejected,
      0, (applyCompletion env q i).2⟩

/-- The state after the fast path of RtpaAddPacket (lines 542-547): the
in-order data shard is stored, nextRtpSequenceNumber advances past it and
the block's nextDataPacketIndex advances with it.  (The source mutates the
block in place twice; the net effect is the single combined update.) -/
def audioFastQueue (q1 : RTP_AUDIO_QUEUE) (i : Nat) (p : PacketIn) : RTP_AUDIO_QUEUE :=
  { q1 with
      nextRtpSequenceNumber := add16 p.rtp.sequenceNumber 1,
      blockList := (setBlockAt q1.blockList i
        { storeDataShard (blockAt q1.blockList i) p.rtp
            (sub16 p.rtp.sequenceNumber (blockAt q1.blockList i).baseSequenceNumber) with
          nextDataPacketIndex := (blockAt q1.blockList i).nextDataPacketIndex + 1 }) }

/-- The fast path return (lines 548-560): if all packets of the block have
now been returned, free the head block (the code asserts the matched block
is the head there). -/
def audioFastPath (q1 : RTP_AUDIO_QUEUE) (i : Nat) (p : PacketIn) : ADD_OUT :=
  if U16 (audioFastQueue q1 i p).nextRtpSequenceNumber ==
      add16 (blockAt q1.blockList i).baseSequenceNumber RTPA_DATA_SHARDS then
    ⟨freeFecBlockHead (audioFastQueue q1 i p), .handleNow, 1, 0⟩
  else ⟨audioFastQueue q1 i p, .handleNow, 0, 0⟩

/-- The audio-data admission of RtpaAddPacket (lines 523-561): reject
duplicates, take the fast path for the in-order shard, otherwise store and
fall through to the completion stage.  (The fast-path test compares against
nextRtpSequenceNumber, which the store does not modify.) -/
def addAudioDataShard (env : Env) (q1 : RTP_AUDIO_QUEUE) (i : Nat) (p : PacketIn) : ADD_OUT :=
  if getMark (blockAt q1.blockList i)
      (sub16 p.rtp.sequenceNumber (blockAt q1.blockList i).baseSequenceNumber) ≠ 0 then
    if U16 p.rtp.sequenceNumber == U16 q1.nextRtpSequenceNumber then
      audioFastPath q1 i p
    else
      finishAddPacket env
        { q1 with blockList := (setBlockAt q1.blockList i
            (storeDataShard (blockAt q1.blockList i) p.rtp
              (sub16 p.rtp.sequenceNumber (blockAt q1.blockList i).baseSequenceNumber))) } i
  else ⟨q1, .rejected, 0, 0⟩

/-- The parity admission of RtpaAddPacket (lines 562-578). -/
def addFecShard (env : Env) (q1 : RTP_AUDIO_QUEUE) (i : Nat) (p : PacketIn) : ADD_OUT :=
  if getMark (blockAt q1.blockList i) (RTPA_DATA_SHARDS + p.fec.fecShardIndex) ≠ 0 then
    finishAddPacket env
      { q1 with blockList := (setBlockAt q1.blockList i
          (storeFecShard (blockAt q1.blockList i) p.fec.fecShardIndex)) } i
  else ⟨q1, .rejected, 0, 0⟩

/-- RtpaAddPacket. -/
def RtpaAddPacket (env : Env) (q : RTP_AUDIO_QUEUE) (p : PacketIn) : ADD_OUT :=
  if q.incompatibleServer then
    -- Straight pass-through once the server is known incompatible.
    ⟨q, if p.rtp.packetType == RTP_PAYLOAD_TYPE_AUDIO then .handleNow else .rejected, 0, 0⟩
  else
    match getFecBlockForRtpPacket env q p with
    | (q1, none) => ⟨q1, .rejected, 0, 0⟩
    | (q1, some i) =>
      if p.rtp.packetType == RTP_PAYLOAD_TYPE_AUDIO then addAudioDataShard env q1 i p
      else addFecShard env q1 i p

/-! ## RtpaGetQueuedPacket -/

inductive GET_RESULT where
  | noPacket : GET_RESULT
  | placeholder : GET_RESULT
  | dataPacket : RTP_PACKET → Nat → GET_RESULT
deriving DecidableEq, Repr

/-- Result of RtpaGetQueuedPacket with the ghost free count.  placeholder
models the zero-length lost-packet entry; dataPacket carries the emitted
RTP header and the *length value. -/
structure GET_OUT where
  q : RTP_AUDIO_QUEUE
  res : GET_RESULT
  freed : Nat
deriving DecidableEq, Repr

/-- The emission state update shared by the normal path and the placeholder
path of RtpaGetQueuedPacket: advance the head's nextDataPacketIndex and the
queue's nextRtpSequenceNumber by one. -/
def advanceHead (q : RTP_AUDIO_QUEUE) (h : RTPA_FEC_BLOCK) (t : List RTPA_FEC_BLOCK) :
    RTP_AUDIO_QUEUE :=
  { q with blockList := { h with nextDataPacketIndex := h.nextDataPacketIndex + 1 } :: t,
           nextRtpSequenceNumber := add16 q.nextRtpSequenceNumber 1 }

/-- Emission of the ready data shard from the head block h :: t
(lines 670-690): copy it out, advance, free the head when drained. -/
def emitReadyCons (q : RTP_AUDIO_QUEUE) (freed0 : Nat) (h : RTPA_FEC_BLOCK)
    (t : List RTPA_FEC_BLOCK) : GET_OUT :=
  if h.nextDataPacketIndex + 1 == RTPA_DATA_SHARDS then
    ⟨freeFecBlockHead (advanceHead q h t),
      .dataPacket (h.dataPackets.getD h.nextDataPacketIndex defaultRtpPacket)
        (h.blockSize + RTP_PACKET_SIZE), freed0 + 1⟩
  else
    ⟨advanceHead q h t,
      .dataPacket (h.dataPackets.getD h.nextDataPacketIndex defaultRtpPacket)
        (h.blockSize + RTP_PACKET_SIZE), freed0⟩

/-- The normal emission path of RtpaGetQueuedPacket (lines 669-691). -/
def emitReadyPacket (q : RTP_AUDIO_QUEUE) (freed0 : Nat) : GET_OUT :=
  if queueHasPacketReady q then
    match q.blockList with
    | [] => ⟨q, .noPacket, freed0⟩
    | h :: t => emitReadyCons q freed0 h t
  else ⟨q, .noPacket, freed0⟩

/-- The placeholder emission for a still-missing shard of a timed-out head
block (lines 635-649 plus the free check at 655-661). -/
def emitPlaceholderCons (q : RTP_AUDIO_QUEUE) (h : RTPA_FEC_BLOCK)
    (t : List RTPA_FEC_BLOCK) : GET_OUT :=
  if h.nextDataPacketIndex + 1 == RTPA_DATA_SHARDS then
    ⟨freeFecBlockHead (advanceHead q h t), .placeholder, 1⟩
  else ⟨advanceHead q h t, .placeholder, 0⟩

/-- RtpaGetQueuedPacket: when the head block allows discontinuities, a
missing shard at the emission index yields a zero-length placeholder;
otherwise (and for well-behaved heads) fall through to the ready check. -/
def RtpaGetQueuedPacket (q : RTP_AUDIO_QUEUE) : GET_OUT :=
  match q.blockList with
  | [] => emitReadyPacket q 0
  | h :: t =>
    if h.allowDiscontinuity then
      if getMark h h.nextDataPacketIndex ≠ 0 then emitPlaceholderCons q h t
      else
        if h.nextDataPacketIndex == RTPA_DATA_SHARDS then
          emitReadyPacket (freeFecBlockHead q) 1
        else emitReadyPacket q 0
    else emitReadyPacket q 0

/-! ## Well-formedness invariant -/

/-- Number of set (missing) entries in a marks array. -/
def popcountMarks : List Nat → Nat
  | [] => 0
  | m :: rest => (if m = 0 then 0 else 1) + popcountMarks rest

/-- Structural and counting facts about a block that hold for every block
the queue ever creates. -/
structure BlockWf (b : RTPA_FEC_BLOCK) : Prop where
  marks_len : b.marks.length = RTPA_TOTAL_SHARDS
  data_len : b.dataPackets.length = RTPA_DATA_SHARDS
  marks_bin : ∀ m ∈ b.marks, m = 0 ∨ m = 1
  base_lt : b.baseSequenceNumber < 65536
  counts : b.fullyReassembled = false →
    b.dataShardsReceived + b.fecShardsReceived =
      RTPA_TOTAL_SHARDS - popcountMarks b.marks
  seq_ok : ∀ i, i < RTPA_DATA_SHARDS → b.marks.getD i 1 = 0 →
    (b.dataPackets.getD i defaultRtpPacket).sequenceNumber =
      add16 b.baseSequenceNumber i

instance (b : RTPA_FEC_BLOCK) : Decidable (BlockWf b) :=
  decidable_of_iff (b.marks.length = RTPA_TOTAL_SHARDS ∧
      b.dataPackets.length = RTPA_DATA_SHARDS ∧
      (∀ m ∈ b.marks, m = 0 ∨ m = 1) ∧
      b.baseSequenceNumber < 65536 ∧
      (b.fullyReassembled = false →
        b.dataShardsReceived + b.fecShardsReceived =
          RTPA_TOTAL_SHARDS - popcountMarks b.marks) ∧
      (∀ i, i < RTPA_DATA_SHARDS → b.marks.getD i 1 = 0 →
        (b.dataPackets.getD i defaultRtpPacket).sequenceNumber =
          add16 b.baseSequenceNumber i))
    ⟨fun h => ⟨h.1, h.2.1, h.2.2.1, h.2.2.2.1, h.2.2.2.2.1, h.2.2.2.2.2⟩,
     fun h => ⟨h.marks_len, h.data_len, h.marks_bin, h.base_lt, h.counts, h.seq_ok⟩⟩

def QueueWf (q : RTP_AUDIO_QUEUE) : Prop := ∀ b ∈ q.blockList, BlockWf b

instance (q : RTP_AUDIO_QUEUE) : Decidable (QueueWf q) := by
  unfold QueueWf
  infer_instance

/-! ## Reachability -/

/-- One public call applied to the queue state. -/
inductive QUEUE_OP where
  | addOp : Env → PacketIn → QUEUE_OP
  | getOp : QUEUE_OP
deriving DecidableEq, Repr

def stepOp (q : RTP_AUDIO_QUEUE) : QUEUE_OP → RTP_AUDIO_QUEUE
  | .addOp env p => (RtpaAddPacket env q p).q
  | .getOp => (RtpaGetQueuedPacket q).q

def runOps (q : RTP_AUDIO_QUEUE) (ops : List QUEUE_OP) : RTP_AUDIO_QUEUE :=
  ops.foldl stepOp q

/-- Queue states reachable from initialization through the public API with
wire-well-formed packets. -/
inductive Reach : RTP_AUDIO_QUEUE → Prop where
  | init : Reach RtpaInitializeQueue
  | add (env : Env) (p : PacketIn) {q : RTP_AUDIO_QUEUE} :
      Reach q → PacketWf p → Reach (RtpaAddPacket env q p).q
  | get {q : RTP_AUDIO_QUEUE} : Reach q → Reach (RtpaGetQueuedPacket q).q
  | cleanup {q : RTP_AUDIO_QUEUE} : Reach q → Reach (RtpaCleanupQueue q)

/-- Wire well-formedness of an operation (trivial for GetQueuedPacket). -/
def opWf : QUEUE_OP → Prop
  | .addOp _ p => PacketWf p
  | .getOp => True

instance : (op : QUEUE_OP) → Decidable (opWf op)
  | .addOp _ p => inferInstanceAs (Decidable (PacketWf p))
  | .getOp => inferInstanceAs (Decidable True)

/-! ## Concrete session inputs used by the counterexample traces

A session with AudioPacketDuration = 5 ms and RTPQ_OOS_WAIT_TIME_MS =
1000 ms (the spec scenarios use 5 ms packets), a healthy Reed-Solomon
codec, data packets of wire length 112 (payload 100 bytes) and FEC packets
of wire length 124 (the same 100-byte shard size). -/

def envT (t : Nat) : Env :=
  { nowMs := t, audioPacketDuration := 5, oosWaitTimeMs := 1000, rsOk := true }

/-- An audio data packet: seq, a 5 ms/packet timestamp, ssrc 0xDEADBEEF. -/
def dataPkt (seq : Nat) : PacketIn :=
  { rtp := { header := 128, packetType := RTP_PAYLOAD_TYPE_AUDIO, sequenceNumber := seq,
             timestamp := seq * 5, ssrc := 3735928559 },
    fec := { payloadType := 0, fecShardIndex := 0, baseSequenceNumber := 0,
             baseTimestamp := 0, ssrc := 0 },
    length := 112 }

/-- An audio data packet with an explicit wire length (shard size len-12). -/
def dataPktLen (seq len : Nat) : PacketIn :=
  { dataPkt seq with length := len }

/-- An FEC packet for block base with parity shard index j. -/
def fecPkt (base ts j : Nat) : PacketIn :=
  { rtp := { header := 128, packetType := RTP_PAYLOAD_TYPE_FEC, sequenceNumber := 0,
             timestamp := 0, ssrc := 3735928559 },
    fec := { payloadType := RTP_PAYLOAD_TYPE_AUDIO, fecShardIndex := j,
             baseSequenceNumber := base, baseTimestamp := ts, ssrc := 3735928559 },
    length := 124 }

/-- Trace for the block-skip counterexample: synchronize at 8, consume
8..11 in order, then present only blocks 16 and 20; the timeout policy
skips the missing block 12..15 entirely. -/
def skipOps : List QUEUE_OP :=
  [.addOp (envT 0) (dataPkt 4),
   .addOp (envT 0) (dataPkt 8), .addOp (envT 0) (dataPkt 9),
   .addOp (envT 0) (dataPkt 10), .addOp (envT 0) (dataPkt 11),
   .addOp (envT 0) (dataPkt 16), .addOp (envT 0) (dataPkt 20)]

def qSkipAt (n : Nat) : RTP_AUDIO_QUEUE := runOps RtpaInitializeQueue (skipOps.take n)

/-- Trace for the counter/marks counterexample: synchronize at 4, receive
data shards 4, 5, 6, then the parity shard that completes the block. -/
def countOps : List QUEUE_OP :=
  [.addOp (envT 0) (dataPkt 0), .addOp (envT 0) (dataPkt 4),
   .addOp (envT 0) (dataPkt 5), .addOp (envT 0) (dataPkt 6)]

def qCountPre : RTP_AUDIO_QUEUE := runOps RtpaInitializeQueue countOps

def qCount : RTP_AUDIO_QUEUE := (RtpaAddPacket (envT 0) qCountPre (fecPkt 4 20 0)).q

/-- Trace for the overlapping-block fast-path anomaly: an FEC-originated
block with the non-aligned base 9 becomes and stays the head while the
data block 12 is filled in order behind it. -/
def overlapOps : List QUEUE_OP :=
  [.addOp (envT 0) (dataPkt 4),        -- synchronize: oldest = next = 8
   .addOp (envT 0) (fecPkt 9 45 0),    -- head block with base 9 (not a multiple of D)
   .addOp (envT 0) (dataPkt 16),       -- timeout: head 9 allows discontinuity, next = 9
   .getOp, .getOp, .getOp,             -- three placeholders: next = 12, head idx = 3
   .addOp (envT 0) (fecPkt 12 60 0),   -- block 12 inserted between 9 and 16
   .addOp (envT 0) (dataPkt 12),       -- fast path on a NON-head block
   .addOp (envT 0) (dataPkt 13), .addOp (envT 0) (dataPkt 14),
   .addOp (envT 0) (dataPkt 15)]       -- drains block 12; frees head block 9 instead

def qOverlapAt (n : Nat) : RTP_AUDIO_QUEUE := runOps RtpaInitializeQueue (overlapOps.take n)

/-- Trace for the ready-before-timeout counterexample: block 4 holds an
emittable packet when the packet for block 8 arrives late. -/
def readyOps : List QUEUE_OP :=
  [.addOp (envT 0) (dataPkt 0), .addOp (envT 0) (dataPkt 5), .addOp (envT 0) (dataPkt 4)]

def qReadyPre : RTP_AUDIO_QUEUE := runOps RtpaInitializeQueue readyOps

/-- Trace for the duplicate-with-state-change counterexample: an OOS event
records lastOosSequenceNumber = 65534, then the timeout policy walks
oldestRtpBaseSequenceNumber forward until it is 16-bit-before 65534, at
which point any data packet - here a duplicate of 52768 - flips
receivedOosData back to false. -/
def dupOps : List QUEUE_OP :=
  [.addOp (envT 0) (dataPkt 4),
   .addOp (envT 0) (dataPkt 8), .addOp (envT 0) (dataPkt 9),
   .addOp (envT 0) (dataPkt 10), .addOp (envT 0) (dataPkt 11),
   .addOp (envT 0) (dataPkt 65534),
   .addOp (envT 0) (dataPkt 20012),
   .addOp (envT 2000) (dataPkt 32768),
   .getOp, .getOp, .getOp, .getOp,
   .addOp (envT 4000) (dataPkt 52768),
   .getOp, .getOp, .getOp, .getOp]

def qDupPre : RTP_AUDIO_QUEUE := runOps RtpaInitializeQueue dupOps

/-- Simple in-order duplicate scenario: synchronize at 8, accept 8, feed 8
again. -/
def qInOrder : RTP_AUDIO_QUEUE :=
  runOps RtpaInitializeQueue [.addOp (envT 0) (dataPkt 4)]

def qInOrder2 : RTP_AUDIO_QUEUE := (RtpaAddPacket (envT 0) qInOrder (dataPkt 8)).q

/-! ## List and arithmetic helper lemmas -/

theorem getD_set_self {α : Type} : ∀ (l : List α) (i : Nat), i < l.length →
    ∀ (a d : α), (l.set i a).getD i d = a
  | [], i, h, _, _ => absurd h (by simp)
  | _ :: _, 0, _, _, _ => rfl
  | _ :: xs, i + 1, h, a, d => getD_set_self xs i (Nat.lt_of_succ_lt_succ h) a d

theorem getD_set_ne {α : Type} : ∀ (l : List α) (i j : Nat), i ≠ j →
    ∀ (a d : α), (l.set i a).getD j d = l.getD j d
  | [], _, _, _, _, _ => by simp
  | _ :: _, 0, 0, hne, _, _ => absurd rfl hne
  | _ :: _, 0, _ + 1, _, _, _ => rfl
  | _ :: _, _ + 1, 0, _, _, _ => rfl
  | _ :: xs, i + 1, j + 1, hne, a, d =>
    getD_set_ne xs i j (fun h => hne (by omega)) a d

theorem mem_of_mem_set {α : Type} : ∀ (l : List α) (i : Nat) (a x : α),
    x ∈ l.set i a → x ∈ l ∨ x = a
  | [], _, _, _, h => by simp at h
  | _ :: _, 0, _, x, h => by
    rcases List.mem_cons.mp h with h | h
    · exact Or.inr h
    · exact Or.inl (List.mem_cons_of_mem _ h)
  | y :: ys, i + 1, a, x, h => by
    rcases List.mem_cons.mp h with h | h
    · exact Or.inl (h ▸ List.mem_cons_self _ _)
    · rcases mem_of_mem_set ys i a x h with h | h
      · exact Or.inl (List.mem_cons_of_mem _ h)
      · exact Or.inr h

theorem getD_mem {α : Type} : ∀ (l : List α) (i : Nat), i < l.length →
    ∀ (d : α), l.getD i d ∈ l
  | [], _, h, _ => absurd h (by simp)
  | _ :: _, 0, _, _ => List.mem_cons_self _ _
  | _ :: xs, i + 1, h, d =>
    List.mem_cons_of_mem _ (getD_mem xs i (Nat.lt_of_succ_lt_succ h) d)

theorem getD_map_range {α : Type} (n : Nat) (f : Nat → α) (i : Nat) (h : i < n) (d : α) :
    (((List.range n).map f).getD i d) = f i := by
  show (((List.range n).map f).get? i).getD d = f i
  rw [List.get?_map, List.get?_range h]
  rfl

theorem insertBlockAt_zero (l : List RTPA_FEC_BLOCK) (b : RTPA_FEC_BLOCK) :
    insertBlockAt l 0 b = b :: l := by
  cases l <;> rfl

theorem length_insertBlockAt : ∀ (l : List RTPA_FEC_BLOCK) (i : Nat) (b : RTPA_FEC_BLOCK),
    (insertBlockAt l i b).length = l.length + 1
  | l, 0, b => by rw [insertBlockAt_zero]; rfl
  | [], _ + 1, _ => rfl
  | _ :: xs, i + 1, b => by
    show (insertBlockAt xs i b).length + 1 = _
    rw [length_insertBlockAt xs i b]; rfl

theorem getD_insertBlockAt : ∀ (l : List RTPA_FEC_BLOCK) (i : Nat), i ≤ l.length →
    ∀ (b d : RTPA_FEC_BLOCK), (insertBlockAt l i b).getD i d = b
  | l, 0, _, b, d => by rw [insertBlockAt_zero]; rfl
  | [], i + 1, h, _, _ => absurd h (by simp)
  | _ :: xs, i + 1, h, b, d => getD_insertBlockAt xs i (Nat.le_of_succ_le_succ h) b d

theorem mem_of_mem_insertBlockAt : ∀ (l : List RTPA_FEC_BLOCK) (i : Nat)
    (b x : RTPA_FEC_BLOCK), x ∈ insertBlockAt l i b → x ∈ l ∨ x = b
  | l, 0, b, x, h => by
    rw [insertBlockAt_zero] at h
    rcases List.mem_cons.mp h with h | h
    · exact Or.inr h
    · exact Or.inl h
  | [], _ + 1, b, x, h => by
    rcases List.mem_cons.mp h with h | h
    · exact Or.inr h
    · simp at h
  | y :: ys, i + 1, b, x, h => by
    rcases List.mem_cons.mp h with h | h
    · exact Or.inl (h ▸ List.mem_cons_self _ _)
    · rcases mem_of_mem_insertBlockAt ys i b x h with h | h
      · exact Or.inl (List.mem_cons_of_mem _ h)
      · exact Or.inr h

theorem popcountMarks_le_length : ∀ l : List Nat, popcountMarks l ≤ l.length
  | [] => Nat.le_refl 0
  | m :: rest => by
    show (if m = 0 then 0 else 1) + popcountMarks rest ≤ rest.length + 1
    have := popcountMarks_le_length rest
    split <;> omega

theorem popcountMarks_set_zero : ∀ (l : List Nat) (i : Nat), i < l.length →
    l.getD i 1 ≠ 0 → popcountMarks (l.set i 0) + 1 = popcountMarks l
  | [], _, h, _ => absurd h (by simp)
  | m :: rest, 0, _, hm => by
    show (if (0 : Nat) = 0 then 0 else 1) + popcountMarks rest + 1 =
      (if m = 0 then 0 else 1) + popcountMarks rest
    have : m ≠ 0 := hm
    simp [this]; omega
  | m :: rest, i + 1, h, hm => by
    show (if m = 0 then 0 else 1) + popcountMarks (rest.set i 0) + 1 =
      (if m = 0 then 0 else 1) + popcountMarks rest
    have := popcountMarks_set_zero rest i (Nat.lt_of_succ_lt_succ h) hm
    omega

theorem popcountMarks_replicate_one (n : Nat) :
    popcountMarks (List.replicate n 1) = n := by
  induction n with
  | zero => rfl
  | succ k ih =>
    show (if (1 : Nat) = 0 then 0 else 1) + popcountMarks (List.replicate k 1) = k + 1
    simp [ih]; omega

/-! ## findFecBlock correctness -/

theorem findFecBlock_found : ∀ (l : List RTPA_FEC_BLOCK) (base bs i : Nat),
    findFecBlock base bs l = .found i →
    i < l.length ∧
    ∀ d, U16 (l.getD i d).baseSequenceNumber = U16 base ∧
      (l.getD i d).blockSize = bs ∧ (l.getD i d).fullyReassembled = false
  | [], base, bs, i, h => by simp [findFecBlock] at h
  | b :: rest, base, bs, i, h => by
    rw [findFecBlock] at h
    by_cases h1 : (U16 b.baseSequenceNumber == U16 base) = true
    · rw [if_pos h1] at h
      by_cases h2 : b.blockSize ≠ bs
      · rw [if_pos h2] at h; exact absurd h (by simp)
      · rw [if_neg h2] at h
        by_cases h3 : b.fullyReassembled
        · rw [if_pos h3] at h; exact absurd h (by simp)
        · rw [if_neg h3] at h
          have hi : i = 0 := by cases h; rfl
          subst hi
          refine ⟨by simp, fun d => ⟨by simpa using h1, ?_, ?_⟩⟩
          · show b.blockSize = bs; omega
          · show b.fullyReassembled = false; simpa using h3
    · rw [if_neg h1] at h
      by_cases h2 : isBefore16 base b.baseSequenceNumber = true
      · rw [if_pos h2] at h; exact absurd h (by simp)
      · rw [if_neg h2] at h
        rcases hr : findFecBlock base bs rest with _ | _ | j | j <;>
          rw [hr] at h <;> simp [bumpFind] at h
        subst h
        have := findFecBlock_found rest base bs j hr
        exact ⟨Nat.succ_lt_succ this.1, fun d => this.2 d⟩

theorem findFecBlock_insertAt : ∀ (l : List RTPA_FEC_BLOCK) (base bs i : Nat),
    findFecBlock base bs l = .insertAt i → i ≤ l.length
  | [], base, bs, i, h => by
    simp [findFecBlock] at h; omega
  | b :: rest, base, bs, i, h => by
    rw [findFecBlock] at h
    by_cases h1 : (U16 b.baseSequenceNumber == U16 base) = true
    · rw [if_pos h1] at h
      by_cases h2 : b.blockSize ≠ bs
      · rw [if_pos h2] at h; exact absurd h (by simp)
      · rw [if_neg h2] at h
        by_cases h3 : b.fullyReassembled
        · rw [if_pos h3] at h; exact absurd h (by simp)
        · rw [if_neg h3] at h; exact absurd h (by simp)
    · rw [if_neg h1] at h
      by_cases h2 : isBefore16 base b.baseSequenceNumber = true
      · rw [if_pos h2] at h
        have : i = 0 := by cases h; rfl
        omega
      · rw [if_neg h2] at h
        rcases hr : findFecBlock base bs rest with _ | _ | j | j <;>
          rw [hr] at h <;> simp [bumpFind] at h
        have := findFecBlock_insertAt rest base bs j hr
        subst h
        simpa using Nat.succ_le_succ this

/-! ## Small arithmetic lemmas -/

theorem U16_lt (n : Nat) : U16 n < 65536 := by
  unfold U16; omega

theorem add16_lt (a b : Nat) : add16 a b < 65536 := by
  unfold add16; omega

theorem U16_of_lt {n : Nat} (h : n < 65536) : U16 n = n := by
  unfold U16; omega

theorem add16_sub16 {a b : Nat} (ha : a < 65536) (hb : b < 65536) :
    add16 b (sub16 a b) = a := by
  unfold add16 sub16 U16; omega

theorem sub16_mod_shards (s : Nat) :
    sub16 s (U16 s / RTPA_DATA_SHARDS * RTPA_DATA_SHARDS) = U16 s % RTPA_DATA_SHARDS := by
  unfold sub16 U16 RTPA_DATA_SHARDS; omega

theorem getD_replicate_one : ∀ (n i : Nat), (List.replicate n (1 : Nat)).getD i 1 = 1
  | 0, _ => rfl
  | _ + 1, 0 => rfl
  | n + 1, i + 1 => getD_replicate_one n i

theorem getD_of_length_le {α : Type} : ∀ (l : List α) (i : Nat), l.length ≤ i →
    ∀ d : α, l.getD i d = d
  | [], _, _, _ => rfl
  | _ :: _, 0, h, _ => absurd h (by simp)
  | _ :: xs, i + 1, h, d => getD_of_length_le xs i (by simpa using h) d

/-! ## deriveBlockId facts -/

theorem deriveBlockId_audio {apd : Nat} {p : PacketIn} {id : FEC_BLOCK_ID}
    (ht : (p.rtp.packetType == RTP_PAYLOAD_TYPE_AUDIO) = true)
    (h : deriveBlockId apd p = some id) :
    id.baseSequenceNumber =
      U16 p.rtp.sequenceNumber / RTPA_DATA_SHARDS * RTPA_DATA_SHARDS ∧
    id.blockSize = p.length - RTP_PACKET_SIZE := by
  unfold deriveBlockId at h
  rw [if_pos ht] at h
  by_cases hl : p.length < RTP_PACKET_SIZE
  · rw [if_pos hl] at h; exact absurd h (by simp)
  · rw [if_neg hl] at h
    have := Option.some.inj h
    subst this
    exact ⟨rfl, rfl⟩

theorem deriveBlockId_fec {apd : Nat} {p : PacketIn} {id : FEC_BLOCK_ID}
    (ht : (p.rtp.packetType == RTP_PAYLOAD_TYPE_AUDIO) = false)
    (h : deriveBlockId apd p = some id) :
    (p.rtp.packetType == RTP_PAYLOAD_TYPE_FEC) = true ∧
    p.fec.fecShardIndex < RTPA_FEC_SHARDS := by
  unfold deriveBlockId at h
  rw [ht] at h
  simp only [if_false, Bool.false_eq_true] at h
  by_cases ht2 : (p.rtp.packetType == RTP_PAYLOAD_TYPE_FEC) = true
  · rw [if_pos ht2] at h
    by_cases hl : p.length < RTP_PACKET_SIZE + AUDIO_FEC_HEADER_SIZE
    · rw [if_pos hl] at h; exact absurd h (by simp)
    · rw [if_neg hl] at h
      by_cases hs : RTPA_FEC_SHARDS ≤ p.fec.fecShardIndex
      · rw [if_pos hs] at h; exact absurd h (by simp)
      · rw [if_neg hs] at h; exact ⟨ht2, by omega⟩
  · rw [if_neg ht2] at h; exact absurd h (by simp)

theorem deriveBlockId_base_lt {apd : Nat} {p : PacketIn} {id : FEC_BLOCK_ID}
    (h : deriveBlockId apd p = some id) : id.baseSequenceNumber < 65536 := by
  by_cases ht : (p.rtp.packetType == RTP_PAYLOAD_TYPE_AUDIO) = true
  · have := (deriveBlockId_audio ht h).1
    rw [this]
    have := U16_lt p.rtp.sequenceNumber
    unfold RTPA_DATA_SHARDS
    omega
  · unfold deriveBlockId at h
    rw [if_neg ht] at h
    by_cases ht2 : (p.rtp.packetType == RTP_PAYLOAD_TYPE_FEC) = true
    · rw [if_pos ht2] at h
      by_cases hl : p.length < RTP_PACKET_SIZE + AUDIO_FEC_HEADER_SIZE
      · rw [if_pos hl] at h; exact absurd h (by simp)
      · rw [if_neg hl] at h
        by_cases hs : RTPA_FEC_SHARDS ≤ p.fec.fecShardIndex
        · rw [if_pos hs] at h; exact absurd h (by simp)
        · rw [if_neg hs] at h
          have := Option.some.inj h
          subst this
          exact U16_lt _
    · rw [if_neg ht2] at h; exact absurd h (by simp)

/-! ## lookupBlock facts -/

theorem lookupBlock_cases (now : Nat) (q1 : RTP_AUDIO_QUEUE) (id : FEC_BLOCK_ID) :
    (lookupBlock now q1 id).1.blockList = q1.blockList ∨
    ∃ i, i ≤ q1.blockList.length ∧
      (lookupBlock now q1 id).1.blockList =
        insertBlockAt q1.blockList i (newFecBlock now id) := by
  unfold lookupBlock
  by_cases h1 : (q1.synchronizing && (q1.oldestRtpBaseSequenceNumber == 0)) = true
  · rw [if_pos h1]; exact Or.inl rfl
  · rw [if_neg h1]
    by_cases h2 : isBefore16 id.baseSequenceNumber q1.oldestRtpBaseSequenceNumber = true
    · rw [if_pos h2]; exact Or.inl rfl
    · rw [if_neg h2]
      rcases hf : findFecBlock id.baseSequenceNumber id.blockSize q1.blockList with
        _ | _ | j | j
      · exact Or.inl rfl
      · exact Or.inl rfl
      · exact Or.inl rfl
      · exact Or.inr ⟨j, findFecBlock_insertAt _ _ _ _ hf, rfl⟩

theorem lookupBlock_some {now : Nat} {q1 : RTP_AUDIO_QUEUE} {id : FEC_BLOCK_ID} {i : Nat}
    (h : (lookupBlock now q1 id).2 = some i) :
    (lookupBlock now q1 id).1 = { q1 with blockList := (lookupBlock now q1 id).1.blockList } ∧
    i < (lookupBlock now q1 id).1.blockList.length ∧
    U16 (blockAt (lookupBlock now q1 id).1.blockList i).baseSequenceNumber =
      U16 id.baseSequenceNumber ∧
    ((lookupBlock now q1 id).1.blockList = q1.blockList ∧
       (blockAt q1.blockList i).fullyReassembled = false ∧
       (blockAt q1.blockList i).blockSize = id.blockSize
     ∨ blockAt (lookupBlock now q1 id).1.blockList i = newFecBlock now id) := by
  unfold lookupBlock at h ⊢
  by_cases h1 : (q1.synchronizing && (q1.oldestRtpBaseSequenceNumber == 0)) = true
  · rw [if_pos h1] at h; exact absurd h (by simp)
  · rw [if_neg h1] at h ⊢
    by_cases h2 : isBefore16 id.baseSequenceNumber q1.oldestRtpBaseSequenceNumber = true
    · rw [if_pos h2] at h; exact absurd h (by simp)
    · rw [if_neg h2] at h ⊢
      rcases hf : findFecBlock id.baseSequenceNumber id.blockSize q1.blockList with
        _ | _ | j | j <;> rw [hf] at h
      · exact absurd h (by simp)
      · exact absurd h (by simp)
      · have hij : j = i := by simpa using h
        subst hij
        have := findFecBlock_found _ _ _ _ hf
        refine ⟨rfl, this.1, ((this.2 _).1), Or.inl ⟨rfl, (this.2 _).2.2, (this.2 _).2.1⟩⟩
      · have hij : j = i := by simpa using h
        subst hij
        have hle := findFecBlock_insertAt _ _ _ _ hf
        have hget := getD_insertBlockAt q1.blockList j hle (newFecBlock now id)
          (newFecBlock 0 ⟨0, 0, 0, 0, 0⟩)
        constructor
        · rfl
        constructor
        · show j < (insertBlockAt q1.blockList j (newFecBlock now id)).length
          rw [length_insertBlockAt]; omega
        constructor
        · show U16 (blockAt (insertBlockAt q1.blockList j (newFecBlock now id)) j).baseSequenceNumber = _
          unfold blockAt
          rw [hget]
          rfl
        · right
          show blockAt (insertBlockAt q1.blockList j (newFecBlock now id)) j = _
          unfold blockAt
          rw [hget]

theorem blockWf_newFecBlock (now : Nat) (id : FEC_BLOCK_ID)
    (hb : id.baseSequenceNumber < 65536) : BlockWf (newFecBlock now id) := by
  constructor
  · simp [newFecBlock]
  · simp [newFecBlock]
  · intro m hm
    right
    exact List.eq_of_mem_replicate hm
  · exact hb
  · intro _
    show 0 + 0 = RTPA_TOTAL_SHARDS - popcountMarks (List.replicate RTPA_TOTAL_SHARDS 1)
    rw [popcountMarks_replicate_one]
    omega
  · intro i _ hm
    have h1 := getD_replicate_one RTPA_TOTAL_SHARDS i
    have h0 : (1 : Nat) = 0 := by
      rw [← h1]; exact hm
    exact absurd h0 (by omega)

theorem blockWf_default : BlockWf (newFecBlock 0 ⟨0, 0, 0, 0, 0⟩) :=
  blockWf_newFecBlock 0 _ (by decide)

theorem blockAt_wf {l : List RTPA_FEC_BLOCK} (hwf : ∀ b ∈ l, BlockWf b) (i : Nat) :
    BlockWf (blockAt l i) := by
  by_cases h : i < l.length
  · exact hwf _ (getD_mem l i h _)
  · unfold blockAt
    rw [getD_of_length_le l i (by omega)]
    exact blockWf_default

theorem RTPA_DATA_SHARDS_eq : RTPA_DATA_SHARDS = 4 := rfl

theorem RTPA_FEC_SHARDS_eq : RTPA_FEC_SHARDS = 2 := rfl

theorem RTPA_TOTAL_SHARDS_eq : RTPA_TOTAL_SHARDS = 6 := rfl

theorem blockWf_set_full {b : RTPA_FEC_BLOCK} (hwf : BlockWf b) :
    BlockWf { b with fullyReassembled := true } := by
  constructor
  · exact hwf.marks_len
  · exact hwf.data_len
  · exact hwf.marks_bin
  · exact hwf.base_lt
  · intro h; exact absurd h (by simp)
  · exact hwf.seq_ok

theorem blockWf_set_disc {b : RTPA_FEC_BLOCK} (hwf : BlockWf b) :
    BlockWf { b with allowDiscontinuity := true } := by
  constructor
  · exact hwf.marks_len
  · exact hwf.data_len
  · exact hwf.marks_bin
  · exact hwf.base_lt
  · exact hwf.counts
  · exact hwf.seq_ok

theorem blockWf_set_idx {b : RTPA_FEC_BLOCK} (hwf : BlockWf b) (n : Nat) :
    BlockWf { b with nextDataPacketIndex := n } := by
  constructor
  · exact hwf.marks_len
  · exact hwf.data_len
  · exact hwf.marks_bin
  · exact hwf.base_lt
  · exact hwf.counts
  · exact hwf.seq_ok

theorem blockWf_storeDataShard {b : RTPA_FEC_BLOCK} {hdr : RTP_PACKET} {pos : Nat}
    (hwf : BlockWf b) (hpos : pos < RTPA_DATA_SHARDS)
    (hmark : b.marks.getD pos 1 ≠ 0)
    (hseq : hdr.sequenceNumber = add16 b.baseSequenceNumber pos) :
    BlockWf (storeDataShard b hdr pos) := by
  have hp6 : pos < b.marks.length := by
    rw [hwf.marks_len, RTPA_TOTAL_SHARDS_eq]
    rw [RTPA_DATA_SHARDS_eq] at hpos
    omega
  have hp4 : pos < b.dataPackets.length := by
    rw [hwf.data_len]; exact hpos
  constructor
  · show (b.marks.set pos 0).length = _
    rw [List.length_set]; exact hwf.marks_len
  · show (b.dataPackets.set pos hdr).length = _
    rw [List.length_set]; exact hwf.data_len
  · intro m hm
    rcases mem_of_mem_set _ _ _ _ hm with h | h
    · exact hwf.marks_bin m h
    · exact Or.inl h
  · exact hwf.base_lt
  · intro hf
    have hold := hwf.counts hf
    have hpc := popcountMarks_set_zero b.marks pos hp6 hmark
    have hle := popcountMarks_le_length b.marks
    rw [hwf.marks_len, RTPA_TOTAL_SHARDS_eq] at hle
    show b.dataShardsReceived + 1 + b.fecShardsReceived =
      RTPA_TOTAL_SHARDS - popcountMarks (b.marks.set pos 0)
    rw [RTPA_TOTAL_SHARDS_eq] at hold ⊢
    omega
  · intro i hi hm
    by_cases hip : i = pos
    · subst hip
      show ((b.dataPackets.set i hdr).getD i defaultRtpPacket).sequenceNumber = _
      rw [getD_set_self _ _ hp4]
      exact hseq
    · have hm2 : b.marks.getD i 1 = 0 := by
        rw [← getD_set_ne b.marks pos i (fun h => hip h.symm) 0 1]
        exact hm
      show ((b.dataPackets.set pos hdr).getD i defaultRtpPacket).sequenceNumber = _
      rw [getD_set_ne b.dataPackets pos i (fun h => hip h.symm)]
      exact hwf.seq_ok i hi hm2

theorem blockWf_storeFecShard {b : RTPA_FEC_BLOCK} {j : Nat}
    (hwf : BlockWf b) (hj : j < RTPA_FEC_SHARDS)
    (hmark : b.marks.getD (RTPA_DATA_SHARDS + j) 1 ≠ 0) :
    BlockWf (storeFecShard b j) := by
  have hp6 : RTPA_DATA_SHARDS + j < b.marks.length := by
    rw [hwf.marks_len, RTPA_TOTAL_SHARDS_eq]
    rw [RTPA_FEC_SHARDS_eq] at hj
    rw [RTPA_DATA_SHARDS_eq]
    omega
  constructor
  · show (b.marks.set (RTPA_DATA_SHARDS + j) 0).length = _
    rw [List.length_set]; exact hwf.marks_len
  · exact hwf.data_len
  · intro m hm
    rcases mem_of_mem_set _ _ _ _ hm with h | h
    · exact hwf.marks_bin m h
    · exact Or.inl h
  · exact hwf.base_lt
  · intro hf
    have hold := hwf.counts hf
    have hpc := popcountMarks_set_zero b.marks _ hp6 hmark
    have hle := popcountMarks_le_length b.marks
    rw [hwf.marks_len, RTPA_TOTAL_SHARDS_eq] at hle
    show b.dataShardsReceived + (b.fecShardsReceived + 1) =
      RTPA_TOTAL_SHARDS - popcountMarks (b.marks.set (RTPA_DATA_SHARDS + j) 0)
    rw [RTPA_TOTAL_SHARDS_eq] at hold ⊢
    omega
  · intro i hi hm
    have hne : RTPA_DATA_SHARDS + j ≠ i := by
      rw [RTPA_DATA_SHARDS_eq] at hi ⊢
      omega
    have hm2 : b.marks.getD i 1 = 0 := by
      rw [← getD_set_ne b.marks _ i hne 0 1]
      exact hm
    exact hwf.seq_ok i hi hm2

theorem blockWf_recover_full {apd : Nat} {b : RTPA_FEC_BLOCK} (hwf : BlockWf b) :
    BlockWf { recoverBlock apd b with fullyReassembled := true } := by
  constructor
  · show ((List.range RTPA_TOTAL_SHARDS).map _).length = _
    rw [List.length_map, List.length_range]
  · show ((List.range RTPA_DATA_SHARDS).map _).length = _
    rw [List.length_map, List.length_range]
  · intro m hm
    simp only [recoverBlock, List.mem_map, List.mem_range] at hm
    obtain ⟨i, hi, rfl⟩ := hm
    by_cases hid : i < RTPA_DATA_SHARDS
    · simp [hid]
    · rw [if_neg hid]
      apply hwf.marks_bin
      apply getD_mem
      rw [hwf.marks_len]
      exact hi
  · exact hwf.base_lt
  · intro h; exact absurd h (by simp)
  · intro i hi _
    change ((((List.range RTPA_DATA_SHARDS).map fun j =>
        if getMark b j ≠ 0 then recoverDataPacket apd b j
        else b.dataPackets.getD j defaultRtpPacket)).getD i defaultRtpPacket).sequenceNumber =
      add16 b.baseSequenceNumber i
    rw [getD_map_range _ _ i hi]
    by_cases hgm : getMark b i ≠ 0
    · rw [if_pos hgm]
      rfl
    · rw [if_neg hgm]
      have hm0 : b.marks.getD i 1 = 0 := by
        unfold getMark at hgm
        omega
      exact hwf.seq_ok i hi hm0

theorem completeFecBlock_block_wf {env : Env} {b : RTPA_FEC_BLOCK} (hwf : BlockWf b) :
    BlockWf (if (completeFecBlock env b).2.1 then
      { (completeFecBlock env b).1 with fullyReassembled := true }
      else (completeFecBlock env b).1) := by
  unfold completeFecBlock
  by_cases h1 : b.dataShardsReceived + b.fecShardsReceived < RTPA_DATA_SHARDS
  · rw [if_pos h1]; exact hwf
  · rw [if_neg h1]
    by_cases h2 : (b.dataShardsReceived == RTPA_DATA_SHARDS) = true
    · rw [if_pos h2]; exact blockWf_set_full hwf
    · rw [if_neg h2]
      by_cases h3 : env.rsOk
      · rw [if_pos h3]; exact blockWf_recover_full hwf
      · rw [if_neg h3]; exact hwf

theorem wf_setBlockAt {l : List RTPA_FEC_BLOCK} {nb : RTPA_FEC_BLOCK} {i : Nat}
    (hwf : ∀ b ∈ l, BlockWf b) (hnb : BlockWf nb) :
    ∀ b ∈ setBlockAt l i nb, BlockWf b := by
  intro b hb
  rcases mem_of_mem_set _ _ _ _ hb with h | h
  · exact hwf b h
  · exact h ▸ hnb

theorem applyCompletion_fst_eq (env : Env) (q : RTP_AUDIO_QUEUE) (i : Nat) :
    (applyCompletion env q i).1 =
      { q with blockList := (applyCompletion env q i).1.blockList } := rfl

theorem applyCompletion_wf {env : Env} {q : RTP_AUDIO_QUEUE} {i : Nat}
    (hwf : QueueWf q) : QueueWf (applyCompletion env q i).1 := by
  intro b hb
  unfold applyCompletion at hb
  exact wf_setBlockAt hwf (completeFecBlock_block_wf (blockAt_wf hwf i)) b hb

theorem freeFecBlockHead_wf {q : RTP_AUDIO_QUEUE} (hwf : QueueWf q) :
    QueueWf (freeFecBlockHead q) := by
  unfold freeFecBlockHead
  rcases hl : q.blockList with _ | ⟨h, t⟩
  · exact hwf
  · intro b hb
    exact hwf b (by rw [hl]; exact List.mem_cons_of_mem _ hb)

theorem discontinuityQueueCons_wf {q1 : RTP_AUDIO_QUEUE} {hd : RTPA_FEC_BLOCK}
    {t : List RTPA_FEC_BLOCK} (hhd : BlockWf hd) (ht : ∀ b ∈ t, BlockWf b) :
    QueueWf (discontinuityQueueCons q1 hd t) := by
  have hq2 : ∀ b ∈ ({ hd with allowDiscontinuity := true } :: t), BlockWf b := by
    intro b hb
    rcases List.mem_cons.mp hb with h3 | h3
    · exact h3 ▸ blockWf_set_disc hhd
    · exact ht b h3
  unfold discontinuityQueueCons
  by_cases hj : isBefore16 q1.nextRtpSequenceNumber hd.baseSequenceNumber = true
  · rw [if_pos hj]
    exact hq2
  · rw [if_neg hj]
    exact hq2

theorem discontinuityQueue_wf {q1 : RTP_AUDIO_QUEUE} (hwf : QueueWf q1) :
    QueueWf (discontinuityQueue q1) := by
  unfold discontinuityQueue
  rcases hl : q1.blockList with _ | ⟨hd, t⟩
  · exact hwf
  · exact discontinuityQueueCons_wf
      (hwf hd (by rw [hl]; exact List.mem_cons_self _ _))
      (fun b hb => hwf b (by rw [hl]; exact List.mem_cons_of_mem _ hb))

theorem finishAddPacket_wf {env : Env} {q : RTP_AUDIO_QUEUE} {i : Nat}
    (hwf : QueueWf q) : QueueWf (finishAddPacket env q i).q := by
  unfold finishAddPacket
  have h1 := @applyCompletion_wf env q i hwf
  split
  · exact h1
  · split
    · exact discontinuityQueue_wf h1
    · exact h1

theorem oosUpdate_blockList (q : RTP_AUDIO_QUEUE) (s : Nat) :
    (oosUpdate q s).blockList = q.blockList := by
  unfold oosUpdate
  split
  · rfl
  · split <;> rfl

theorem oosTrack_blockList (q : RTP_AUDIO_QUEUE) (p : PacketIn) :
    (oosTrack q p).blockList = q.blockList := by
  unfold oosTrack
  split
  · split
    · rfl
    · exact oosUpdate_blockList q _
  · rfl

theorem oosTrack_wf {q : RTP_AUDIO_QUEUE} (hwf : QueueWf q) (p : PacketIn) :
    QueueWf (oosTrack q p) := by
  intro b hb
  rw [oosTrack_blockList] at hb
  exact hwf b hb

theorem lookupBlock_wf {now : Nat} {q1 : RTP_AUDIO_QUEUE} {id : FEC_BLOCK_ID}
    (hwf : QueueWf q1) (hbase : id.baseSequenceNumber < 65536) :
    QueueWf (lookupBlock now q1 id).1 := by
  intro b hb
  rcases lookupBlock_cases now q1 id with h | ⟨j, _, h⟩
  · rw [h] at hb; exact hwf b hb
  · rw [h] at hb
    rcases mem_of_mem_insertBlockAt _ _ _ _ hb with h2 | h2
    · exact hwf b h2
    · exact h2 ▸ blockWf_newFecBlock now id hbase

theorem getFecBlock_wf {env : Env} {q : RTP_AUDIO_QUEUE} {p : PacketIn}
    (hwf : QueueWf q) : QueueWf (getFecBlockForRtpPacket env q p).1 := by
  unfold getFecBlockForRtpPacket
  rcases hd : deriveBlockId env.audioPacketDuration p with _ | id
  · exact oosTrack_wf hwf p
  · exact lookupBlock_wf (oosTrack_wf hwf p) (deriveBlockId_base_lt hd)

theorem getFecBlock_some_decomp {env : Env} {q q1 : RTP_AUDIO_QUEUE} {p : PacketIn} {i : Nat}
    (hg : getFecBlockForRtpPacket env q p = (q1, some i)) :
    ∃ id, deriveBlockId env.audioPacketDuration p = some id ∧
      lookupBlock env.nowMs (oosTrack q p) id = (q1, some i) := by
  unfold getFecBlockForRtpPacket at hg
  rcases hd : deriveBlockId env.audioPacketDuration p with _ | id
  · rw [hd] at hg
    simp at hg
  · rw [hd] at hg
    exact ⟨id, rfl, hg⟩

theorem addAudioDataShard_wf {env : Env} {q1 : RTP_AUDIO_QUEUE} {i : Nat} {p : PacketIn}
    (hq1 : QueueWf q1) (hslt : p.rtp.sequenceNumber < 65536)
    (hbase : (blockAt q1.blockList i).baseSequenceNumber =
      U16 p.rtp.sequenceNumber / RTPA_DATA_SHARDS * RTPA_DATA_SHARDS) :
    QueueWf (addAudioDataShard env q1 i p).q := by
  have hbwf := blockAt_wf hq1 i
  have hpos : sub16 p.rtp.sequenceNumber (blockAt q1.blockList i).baseSequenceNumber <
      RTPA_DATA_SHARDS := by
    rw [hbase, sub16_mod_shards, RTPA_DATA_SHARDS_eq]
    omega
  have hseq : p.rtp.sequenceNumber =
      add16 (blockAt q1.blockList i).baseSequenceNumber
        (sub16 p.rtp.sequenceNumber (blockAt q1.blockList i).baseSequenceNumber) :=
    (add16_sub16 hslt hbwf.base_lt).symm
  unfold addAudioDataShard
  by_cases hm : getMark (blockAt q1.blockList i)
      (sub16 p.rtp.sequenceNumber (blockAt q1.blockList i).baseSequenceNumber) ≠ 0
  · rw [if_pos hm]
    have hstw : BlockWf (storeDataShard (blockAt q1.blockList i) p.rtp
        (sub16 p.rtp.sequenceNumber (blockAt q1.blockList i).baseSequenceNumber)) :=
      blockWf_storeDataShard hbwf hpos hm hseq
    by_cases hfast : (U16 p.rtp.sequenceNumber == U16 q1.nextRtpSequenceNumber) = true
    · rw [if_pos hfast]
      unfold audioFastPath
      have hq4 : QueueWf (audioFastQueue q1 i p) := by
        intro b hb
        unfold audioFastQueue at hb
        exact wf_setBlockAt hq1 (blockWf_set_idx hstw _) b hb
      split
      · exact freeFecBlockHead_wf hq4
      · exact hq4
    · rw [if_neg hfast]
      exact finishAddPacket_wf (wf_setBlockAt hq1 hstw)
  · rw [if_neg hm]
    exact hq1

theorem addFecShard_wf {env : Env} {q1 : RTP_AUDIO_QUEUE} {i : Nat} {p : PacketIn}
    (hq1 : QueueWf q1) (hj : p.fec.fecShardIndex < RTPA_FEC_SHARDS) :
    QueueWf (addFecShard env q1 i p).q := by
  unfold addFecShard
  by_cases hm : getMark (blockAt q1.blockList i)
      (RTPA_DATA_SHARDS + p.fec.fecShardIndex) ≠ 0
  · rw [if_pos hm]
    exact finishAddPacket_wf
      (wf_setBlockAt hq1 (blockWf_storeFecShard (blockAt_wf hq1 i) hj hm))
  · rw [if_neg hm]
    exact hq1

theorem addPacket_wf {env : Env} {q : RTP_AUDIO_QUEUE} {p : PacketIn}
    (hwf : QueueWf q) (hp : PacketWf p) : QueueWf (RtpaAddPacket env q p).q := by
  unfold RtpaAddPacket
  by_cases hic : q.incompatibleServer = true
  · rw [if_pos hic]; exact hwf
  · rw [if_neg hic]
    rcases hg : getFecBlockForRtpPacket env q p with ⟨q1, oi⟩
    have hq1 : QueueWf q1 := by
      have := @getFecBlock_wf env q p hwf
      rw [hg] at this
      exact this
    rcases oi with _ | i
    · exact hq1
    · obtain ⟨id, hd, hl⟩ := getFecBlock_some_decomp hg
      have h2 := lookupBlock_some (show (lookupBlock env.nowMs (oosTrack q p) id).2 = some i by
        rw [hl])
      rw [hl] at h2
      have hblt := (blockAt_wf hq1 i).base_lt
      have hidlt := deriveBlockId_base_lt hd
      have hbase : (blockAt q1.blockList i).baseSequenceNumber = id.baseSequenceNumber := by
        have h3 := h2.2.2.1
        rw [U16_of_lt hblt, U16_of_lt hidlt] at h3
        exact h3
      show QueueWf (if (p.rtp.packetType == RTP_PAYLOAD_TYPE_AUDIO) = true then
        addAudioDataShard env q1 i p else addFecShard env q1 i p).q
      by_cases hpt : (p.rtp.packetType == RTP_PAYLOAD_TYPE_AUDIO) = true
      · rw [if_pos hpt]
        have hida := deriveBlockId_audio hpt hd
        exact addAudioDataShard_wf hq1 hp.2.2.1 (by rw [hbase, hida.1])
      · rw [if_neg hpt]
        have hidf := deriveBlockId_fec (by simpa using hpt) hd
        exact addFecShard_wf hq1 hidf.2

theorem advanceHead_wf {q : RTP_AUDIO_QUEUE} {h : RTPA_FEC_BLOCK}
    {t : List RTPA_FEC_BLOCK} (hh : BlockWf h) (ht : ∀ b ∈ t, BlockWf b) :
    QueueWf (advanceHead q h t) := by
  intro b hb
  rcases List.mem_cons.mp hb with h3 | h3
  · exact h3 ▸ blockWf_set_idx hh _
  · exact ht b h3

theorem emitReadyCons_wf {q : RTP_AUDIO_QUEUE} {n : Nat} {h : RTPA_FEC_BLOCK}
    {t : List RTPA_FEC_BLOCK} (hh : BlockWf h) (ht : ∀ b ∈ t, BlockWf b) :
    QueueWf (emitReadyCons q n h t).q := by
  unfold emitReadyCons
  split
  · exact freeFecBlockHead_wf (advanceHead_wf hh ht)
  · exact advanceHead_wf hh ht

theorem emitPlaceholderCons_wf {q : RTP_AUDIO_QUEUE} {h : RTPA_FEC_BLOCK}
    {t : List RTPA_FEC_BLOCK} (hh : BlockWf h) (ht : ∀ b ∈ t, BlockWf b) :
    QueueWf (emitPlaceholderCons q h t).q := by
  unfold emitPlaceholderCons
  split
  · exact freeFecBlockHead_wf (advanceHead_wf hh ht)
  · exact advanceHead_wf hh ht

theorem emitReadyPacket_wf {q : RTP_AUDIO_QUEUE} {n : Nat} (hwf : QueueWf q) :
    QueueWf (emitReadyPacket q n).q := by
  unfold emitReadyPacket
  by_cases hr : queueHasPacketReady q = true
  · rw [if_pos hr]
    rcases hl : q.blockList with _ | ⟨h, t⟩
    · exact hwf
    · exact emitReadyCons_wf
        (hwf h (by rw [hl]; exact List.mem_cons_self _ _))
        (fun b hb => hwf b (by rw [hl]; exact List.mem_cons_of_mem _ hb))
  · rw [if_neg hr]
    exact hwf

theorem getQueuedPacket_wf {q : RTP_AUDIO_QUEUE} (hwf : QueueWf q) :
    QueueWf (RtpaGetQueuedPacket q).q := by
  unfold RtpaGetQueuedPacket
  rcases hl : q.blockList with _ | ⟨h, t⟩
  · exact emitReadyPacket_wf hwf
  · have hhwf : BlockWf h := hwf h (by rw [hl]; exact List.mem_cons_self _ _)
    have htwf : ∀ x ∈ t, BlockWf x := fun x hx =>
      hwf x (by rw [hl]; exact List.mem_cons_of_mem _ hx)
    show QueueWf (if h.allowDiscontinuity = true then
      (if getMark h h.nextDataPacketIndex ≠ 0 then emitPlaceholderCons q h t
       else if (h.nextDataPacketIndex == RTPA_DATA_SHARDS) = true then
         emitReadyPacket (freeFecBlockHead q) 1
       else emitReadyPacket q 0)
      else emitReadyPacket q 0).q
    by_cases hdisc : h.allowDiscontinuity = true
    · rw [if_pos hdisc]
      by_cases hm : getMark h h.nextDataPacketIndex ≠ 0
      · rw [if_pos hm]
        exact emitPlaceholderCons_wf hhwf htwf
      · rw [if_neg hm]
        split
        · exact emitReadyPacket_wf (freeFecBlockHead_wf hwf)
        · exact emitReadyPacket_wf hwf
    · rw [if_neg hdisc]
      exact emitReadyPacket_wf hwf

/-! ## Projection lemmas for the public-call state transformers -/

theorem oosUpdate_fields (q : RTP_AUDIO_QUEUE) (s : Nat) :
    (oosUpdate q s).oldestRtpBaseSequenceNumber = q.oldestRtpBaseSequenceNumber ∧
    (oosUpdate q s).nextRtpSequenceNumber = q.nextRtpSequenceNumber ∧
    (oosUpdate q s).synchronizing = q.synchronizing ∧
    (oosUpdate q s).incompatibleServer = q.incompatibleServer := by
  unfold oosUpdate
  split
  · exact ⟨rfl, rfl, rfl, rfl⟩
  · split
    · exact ⟨rfl, rfl, rfl, rfl⟩
    · exact ⟨rfl, rfl, rfl, rfl⟩

theorem oosTrack_fields (q : RTP_AUDIO_QUEUE) (p : PacketIn) :
    (oosTrack q p).oldestRtpBaseSequenceNumber = q.oldestRtpBaseSequenceNumber ∧
    (oosTrack q p).nextRtpSequenceNumber = q.nextRtpSequenceNumber ∧
    (oosTrack q p).synchronizing = q.synchronizing ∧
    (oosTrack q p).incompatibleServer = q.incompatibleServer := by
  unfold oosTrack
  split
  · split
    · exact ⟨rfl, rfl, rfl, rfl⟩
    · exact oosUpdate_fields q _
  · exact ⟨rfl, rfl, rfl, rfl⟩

theorem oosTrack_of_fec {q : RTP_AUDIO_QUEUE} {p : PacketIn}
    (ht : (p.rtp.packetType == RTP_PAYLOAD_TYPE_AUDIO) = false) : oosTrack q p = q := by
  unfold oosTrack
  rw [ht]
  simp

theorem freeFecBlockHead_fields (q : RTP_AUDIO_QUEUE) :
    (freeFecBlockHead q).nextRtpSequenceNumber = q.nextRtpSequenceNumber ∧
    (freeFecBlockHead q).incompatibleServer = q.incompatibleServer ∧
    (freeFecBlockHead q).receivedOosData = q.receivedOosData := by
  unfold freeFecBlockHead
  rcases q.blockList with _ | ⟨h, t⟩
  · exact ⟨rfl, rfl, rfl⟩
  · exact ⟨rfl, rfl, rfl⟩

theorem freeFecBlockHead_sync_of_cons {q : RTP_AUDIO_QUEUE} {h : RTPA_FEC_BLOCK}
    {t : List RTPA_FEC_BLOCK} (hl : q.blockList = h :: t) :
    (freeFecBlockHead q).synchronizing = false := by
  unfold freeFecBlockHead
  rw [hl]

theorem lookupBlock_sync_fields (now : Nat) (q1 : RTP_AUDIO_QUEUE) (id : FEC_BLOCK_ID) :
    (lookupBlock now q1 id).1.synchronizing = q1.synchronizing := by
  unfold lookupBlock
  split
  · rfl
  · split
    · rfl
    · split <;> rfl

theorem getFecBlock_sync (env : Env) (q : RTP_AUDIO_QUEUE) (p : PacketIn) :
    (getFecBlockForRtpPacket env q p).1.synchronizing = q.synchronizing := by
  unfold getFecBlockForRtpPacket
  rcases deriveBlockId env.audioPacketDuration p with _ | id
  · exact (oosTrack_fields q p).2.2.1
  · rw [lookupBlock_sync_fields]
    exact (oosTrack_fields q p).2.2.1

theorem discontinuityQueueCons_sync (q1 : RTP_AUDIO_QUEUE) (hd : RTPA_FEC_BLOCK)
    (t : List RTPA_FEC_BLOCK) :
    (discontinuityQueueCons q1 hd t).synchronizing = q1.synchronizing := by
  unfold discontinuityQueueCons
  split <;> rfl

theorem discontinuityQueue_sync (q1 : RTP_AUDIO_QUEUE) :
    (discontinuityQueue q1).synchronizing = q1.synchronizing := by
  unfold discontinuityQueue
  rcases q1.blockList with _ | ⟨hd, t⟩
  · rfl
  · exact discontinuityQueueCons_sync q1 hd t

theorem finishAddPacket_ghost (env : Env) (q : RTP_AUDIO_QUEUE) (i : Nat) :
    (finishAddPacket env q i).freed = 0 ∧
    (finishAddPacket env q i).q.synchronizing = q.synchronizing ∧
    (finishAddPacket env q i).ret ≠ .handleNow := by
  unfold finishAddPacket
  split
  · exact ⟨rfl, rfl, by simp⟩
  · split
    · refine ⟨rfl, ?_, by simp⟩
      exact discontinuityQueue_sync _
    · refine ⟨rfl, rfl, ?_⟩
      simp

/-! ## The synchronizing flag is cleared exactly by freeFecBlockHead -/

theorem audioFastQueue_sync (q1 : RTP_AUDIO_QUEUE) (i : Nat) (p : PacketIn) :
    (audioFastQueue q1 i p).synchronizing = q1.synchronizing := rfl

theorem addAudioDataShard_sync_freed {env : Env} {q1 : RTP_AUDIO_QUEUE} {i : Nat}
    {p : PacketIn} (hlen : i < q1.blockList.length) :
    (addAudioDataShard env q1 i p).q.synchronizing =
      (q1.synchronizing && ((addAudioDataShard env q1 i p).freed == 0)) := by
  unfold addAudioDataShard
  split
  · split
    · unfold audioFastPath
      split
      · have hne : (audioFastQueue q1 i p).blockList.length ≠ 0 := by
          show (setBlockAt q1.blockList i _).length ≠ 0
          unfold setBlockAt
          rw [List.length_set]
          omega
        rcases hcons : (audioFastQueue q1 i p).blockList with _ | ⟨h, t⟩
        · rw [hcons] at hne; simp at hne
        · show (freeFecBlockHead (audioFastQueue q1 i p)).synchronizing = _
          rw [freeFecBlockHead_sync_of_cons hcons]
          simp
      · show (audioFastQueue q1 i p).synchronizing = (q1.synchronizing && ((0 : Nat) == 0))
        rw [audioFastQueue_sync]
        simp
    · have h1 := finishAddPacket_ghost env
        { q1 with blockList := (setBlockAt q1.blockList i
            (storeDataShard (blockAt q1.blockList i) p.rtp
              (sub16 p.rtp.sequenceNumber (blockAt q1.blockList i).baseSequenceNumber))) } i
      rw [h1.1, h1.2.1]
      simp
  · simp

theorem addFecShard_sync_freed {env : Env} {q1 : RTP_AUDIO_QUEUE} {i : Nat} {p : PacketIn} :
    (addFecShard env q1 i p).q.synchronizing =
      (q1.synchronizing && ((addFecShard env q1 i p).freed == 0)) := by
  unfold addFecShard
  split
  · have h1 := finishAddPacket_ghost env
      { q1 with blockList := (setBlockAt q1.blockList i
          (storeFecShard (blockAt q1.blockList i) p.fec.fecShardIndex)) } i
    rw [h1.1, h1.2.1]
    simp
  · simp

theorem addPacket_sync_freed (env : Env) (q : RTP_AUDIO_QUEUE) (p : PacketIn) :
    (RtpaAddPacket env q p).q.synchronizing =
      (q.synchronizing && ((RtpaAddPacket env q p).freed == 0)) := by
  unfold RtpaAddPacket
  by_cases hic : q.incompatibleServer = true
  · rw [if_pos hic]; simp
  · rw [if_neg hic]
    rcases hg : getFecBlockForRtpPacket env q p with ⟨q1, oi⟩
    have hsync : q1.synchronizing = q.synchronizing := by
      have h1 := getFecBlock_sync env q p
      rw [hg] at h1
      exact h1
    rcases oi with _ | i
    · show q1.synchronizing = (q.synchronizing && ((0 : Nat) == 0))
      rw [hsync]; simp
    · have hlen : i < q1.blockList.length := by
        obtain ⟨id, hd, hl⟩ := getFecBlock_some_decomp hg
        have h2 := (lookupBlock_some (show (lookupBlock env.nowMs (oosTrack q p) id).2 = some i
          by rw [hl])).2.1
        rw [hl] at h2
        exact h2
      show (if (p.rtp.packetType == RTP_PAYLOAD_TYPE_AUDIO) = true then
          addAudioDataShard env q1 i p else addFecShard env q1 i p).q.synchronizing =
        (q.synchronizing && ((if (p.rtp.packetType == RTP_PAYLOAD_TYPE_AUDIO) = true then
          addAudioDataShard env q1 i p else addFecShard env q1 i p).freed == 0))
      by_cases hpt : (p.rtp.packetType == RTP_PAYLOAD_TYPE_AUDIO) = true
      · rw [if_pos hpt, ← hsync]
        exact addAudioDataShard_sync_freed hlen
      · rw [if_neg hpt, ← hsync]
        exact addFecShard_sync_freed

theorem emitReadyCons_sync_freed (q : RTP_AUDIO_QUEUE) (n : Nat) (h : RTPA_FEC_BLOCK)
    (t : List RTPA_FEC_BLOCK) :
    (emitReadyCons q n h t).q.synchronizing =
      (q.synchronizing && ((emitReadyCons q n h t).freed == n)) := by
  unfold emitReadyCons
  split
  · show (freeFecBlockHead (advanceHead q h t)).synchronizing =
      (q.synchronizing && (n + 1 == n))
    rw [freeFecBlockHead_sync_of_cons
      (show (advanceHead q h t).blockList = _ :: t from rfl)]
    simp
  · show (advanceHead q h t).synchronizing = (q.synchronizing && (n == n))
    simp [advanceHead]

theorem emitReadyPacket_sync_freed (q : RTP_AUDIO_QUEUE) (n : Nat) :
    (emitReadyPacket q n).q.synchronizing =
      (q.synchronizing && ((emitReadyPacket q n).freed == n)) := by
  unfold emitReadyPacket
  split
  · rcases hl : q.blockList with _ | ⟨h, t⟩
    · show q.synchronizing = (q.synchronizing && (n == n))
      simp
    · show (emitReadyCons q n h t).q.synchronizing =
        (q.synchronizing && ((emitReadyCons q n h t).freed == n))
      exact emitReadyCons_sync_freed q n h t
  · show q.synchronizing = (q.synchronizing && (n == n))
    simp

theorem emitPlaceholderCons_sync_freed (q : RTP_AUDIO_QUEUE) (h : RTPA_FEC_BLOCK)
    (t : List RTPA_FEC_BLOCK) :
    (emitPlaceholderCons q h t).q.synchronizing =
      (q.synchronizing && ((emitPlaceholderCons q h t).freed == 0)) := by
  unfold emitPlaceholderCons
  split
  · show (freeFecBlockHead (advanceHead q h t)).synchronizing =
      (q.synchronizing && ((1 : Nat) == 0))
    rw [freeFecBlockHead_sync_of_cons
      (show (advanceHead q h t).blockList = _ :: t from rfl)]
    simp
  · show (advanceHead q h t).synchronizing = (q.synchronizing && ((0 : Nat) == 0))
    simp [advanceHead]

theorem emitReadyPacket_freed_ge (q : RTP_AUDIO_QUEUE) (n : Nat) :
    n ≤ (emitReadyPacket q n).freed := by
  unfold emitReadyPacket
  split
  · rcases q.blockList with _ | ⟨h, t⟩
    · exact Nat.le_refl n
    · show n ≤ (emitReadyCons q n h t).freed
      unfold emitReadyCons
      split
      · show n ≤ n + 1
        omega
      · exact Nat.le_refl n
  · exact Nat.le_refl n

theorem getQueued_sync_freed (q : RTP_AUDIO_QUEUE) :
    (RtpaGetQueuedPacket q).q.synchronizing =
      (q.synchronizing && ((RtpaGetQueuedPacket q).freed == 0)) := by
  unfold RtpaGetQueuedPacket
  rcases hl : q.blockList with _ | ⟨h, t⟩
  · exact emitReadyPacket_sync_freed q 0
  · show (if h.allowDiscontinuity = true then
        (if getMark h h.nextDataPacketIndex ≠ 0 then emitPlaceholderCons q h t
         else if (h.nextDataPacketIndex == RTPA_DATA_SHARDS) = true then
           emitReadyPacket (freeFecBlockHead q) 1
         else emitReadyPacket q 0)
        else emitReadyPacket q 0).q.synchronizing =
      (q.synchronizing && ((if h.allowDiscontinuity = true then
        (if getMark h h.nextDataPacketIndex ≠ 0 then emitPlaceholderCons q h t
         else if (h.nextDataPacketIndex == RTPA_DATA_SHARDS) = true then
           emitReadyPacket (freeFecBlockHead q) 1
         else emitReadyPacket q 0)
        else emitReadyPacket q 0).freed == 0))
    split
    · split
      · exact emitPlaceholderCons_sync_freed q h t
      · split
        · have h1 := emitReadyPacket_sync_freed (freeFecBlockHead q) 1
          rw [h1, freeFecBlockHead_sync_of_cons hl]
          have h2 := emitReadyPacket_freed_ge (freeFecBlockHead q) 1
          simp
          intro _
          omega
        · exact emitReadyPacket_sync_freed q 0
    · exact emitReadyPacket_sync_freed q 0

theorem reach_wf {q : RTP_AUDIO_QUEUE} (h : Reach q) : QueueWf q := by
  induction h with
  | init =>
    intro b hb
    simp [RtpaInitializeQueue] at hb
  | add env p _ hp ih => exact addPacket_wf ih hp
  | get _ ih => exact getQueuedPacket_wf ih
  | cleanup _ ih =>
    intro b hb
    simp [RtpaCleanupQueue] at hb

/-! ## Reachability of the concrete traces -/

theorem reach_runOps : ∀ (ops : List QUEUE_OP) (q : RTP_AUDIO_QUEUE),
    Reach q → (∀ op ∈ ops, opWf op) → Reach (runOps q ops)
  | [], _, hq, _ => hq
  | op :: rest, q, hq, hops => by
    have h1 : Reach (stepOp q op) := by
      cases op with
      | addOp env p => exact Reach.add env p hq (hops _ (List.mem_cons_self _ _))
      | getOp => exact Reach.get hq
    exact reach_runOps rest (stepOp q op) h1 fun o ho => hops o (List.mem_cons_of_mem _ ho)

/-! ## Lemmas about the synchronization branch -/

theorem lookupBlock_sync_branch {now : Nat} {q1 : RTP_AUDIO_QUEUE} {id : FEC_BLOCK_ID}
    (hs : q1.synchronizing = true) (ho : q1.oldestRtpBaseSequenceNumber = 0) :
    lookupBlock now q1 id =
      ({ q1 with
          nextRtpSequenceNumber := add16 id.baseSequenceNumber RTPA_DATA_SHARDS,
          oldestRtpBaseSequenceNumber := add16 id.baseSequenceNumber RTPA_DATA_SHARDS },
       none) := by
  unfold lookupBlock
  rw [hs, ho]
  rfl

theorem addPacket_of_none {env : Env} {q q1 : RTP_AUDIO_QUEUE} {p : PacketIn}
    (hic : q.incompatibleServer = false)
    (hg : getFecBlockForRtpPacket env q p = (q1, none)) :
    RtpaAddPacket env q p = ⟨q1, .rejected, 0, 0⟩ := by
  unfold RtpaAddPacket
  rw [if_neg (by simp [hic]), hg]

/-- C2: while the queue is synchronizing with oldestRtpBaseSequenceNumber
still 0, the first admissible packet (audio data or FEC) is discarded with
return 0 and both oldestRtpBaseSequenceNumber and nextRtpSequenceNumber
jump to the packet's derived block base plus RTPA_DATA_SHARDS, with
synchronizing still true; and on every public call the synchronizing flag
is true afterwards exactly when it was true before and the call freed no
block from the head of the list. -/
theorem claim_C2 :
    (∀ (env : Env) (q : RTP_AUDIO_QUEUE) (p : PacketIn) (id : FEC_BLOCK_ID),
      q.incompatibleServer = false → q.synchronizing = true →
      q.oldestRtpBaseSequenceNumber = 0 →
      deriveBlockId env.audioPacketDuration p = some id →
      (RtpaAddPacket env q p).ret = .rejected ∧
      (RtpaAddPacket env q p).q.oldestRtpBaseSequenceNumber =
        add16 id.baseSequenceNumber RTPA_DATA_SHARDS ∧
      (RtpaAddPacket env q p).q.nextRtpSequenceNumber =
        add16 id.baseSequenceNumber RTPA_DATA_SHARDS ∧
      (RtpaAddPacket env q p).q.synchronizing = true) ∧
    (∀ (env : Env) (q : RTP_AUDIO_QUEUE) (p : PacketIn),
      (RtpaAddPacket env q p).q.synchronizing =
        (q.synchronizing && ((RtpaAddPacket env q p).freed == 0))) ∧
    (∀ q : RTP_AUDIO_QUEUE, (RtpaGetQueuedPacket q).q.synchronizing =
        (q.synchronizing && ((RtpaGetQueuedPacket q).freed == 0))) := by
  refine ⟨?_, addPacket_sync_freed, getQueued_sync_freed⟩
  intro env q p id hic hs ho hd
  have hq1s : (oosTrack q p).synchronizing = true := by
    rw [(oosTrack_fields q p).2.2.1]; exact hs
  have hq1o : (oosTrack q p).oldestRtpBaseSequenceNumber = 0 := by
    rw [(oosTrack_fields q p).1]; exact ho
  have hg : getFecBlockForRtpPacket env q p =
      ({ oosTrack q p with
          nextRtpSequenceNumber := add16 id.baseSequenceNumber RTPA_DATA_SHARDS,
          oldestRtpBaseSequenceNumber := add16 id.baseSequenceNumber RTPA_DATA_SHARDS },
       none) := by
    unfold getFecBlockForRtpPacket
    rw [hd]
    exact lookupBlock_sync_branch hq1s hq1o
  rw [addPacket_of_none hic hg]
  exact ⟨rfl, rfl, rfl, hq1s⟩

/-- C2 witness: the first packet (seq 4) of a fresh session is dropped and
the sequencer synchronizes at 8. -/
theorem claim_C2_witness :
    (RtpaAddPacket (envT 0) RtpaInitializeQueue (dataPkt 4)).ret = .rejected ∧
    (RtpaAddPacket (envT 0) RtpaInitializeQueue (dataPkt 4)).q.oldestRtpBaseSequenceNumber =
      add16 4 RTPA_DATA_SHARDS ∧
    (RtpaAddPacket (envT 0) RtpaInitializeQueue (dataPkt 4)).q.synchronizing = true := by
  have h := claim_C2.1 (envT 0) RtpaInitializeQueue (dataPkt 4)
    { payloadType := 97, baseSequenceNumber := 4, baseTimestamp := 20,
      ssrc := 3735928559, blockSize := 100 }
    (by decide) (by decide) (by decide) (by decide)
  exact ⟨h.1, h.2.1, h.2.2.2⟩

/-- C3 (amended): the counting invariant dataShardsReceived +
fecShardsReceived = T - popcount(marks) holds in every reachable state for
every block that is not fullyReassembled; Reed-Solomon recovery clears the
data marks without crediting the counters, so the unrestricted form of the
invariant fails (see the counterexample). -/
theorem claim_C3_amended : ∀ q : RTP_AUDIO_QUEUE, Reach q →
    ∀ b ∈ q.blockList, b.fullyReassembled = false →
    b.dataShardsReceived + b.fecShardsReceived =
      RTPA_TOTAL_SHARDS - popcountMarks b.marks :=
  fun _ h b hb hf => (reach_wf h b hb).counts hf

/-- C3 counterexample: after synchronizing at 4 and receiving data shards
4, 5, 6 plus parity shard 0, recovery of shard 7 leaves the block on the
list with dataShardsReceived + fecShardsReceived = 4 but T - popcount = 5:
invariant 6 of the spec is violated at the exit of a public call. -/
theorem claim_C3_counterexample :
    Reach qCount ∧
    blockAt qCount.blockList 0 ∈ qCount.blockList ∧
    ¬((blockAt qCount.blockList 0).dataShardsReceived +
        (blockAt qCount.blockList 0).fecShardsReceived =
      RTPA_TOTAL_SHARDS - popcountMarks (blockAt qCount.blockList 0).marks) := by
  refine ⟨?_, by decide, by decide⟩
  exact Reach.add (envT 0) (fecPkt 4 20 0)
    (reach_runOps countOps _ Reach.init (by decide)) (by decide)

/-- C3 witness: the invariant instantiated on the reachable state holding
the incomplete block 4 (three data shards received, nothing recovered). -/
theorem claim_C3_amended_witness :
    (blockAt qCountPre.blockList 0).dataShardsReceived +
      (blockAt qCountPre.blockList 0).fecShardsReceived =
      RTPA_TOTAL_SHARDS - popcountMarks (blockAt qCountPre.blockList 0).marks :=
  claim_C3_amended qCountPre (reach_runOps countOps _ Reach.init (by decide))
    (blockAt qCountPre.blockList 0) (by decide) (by decide)

/-! ## Per-emission sequencing (claim C1) -/

theorem add16_congr_left {a b : Nat} (h : U16 a = U16 b) (c : Nat) :
    add16 a c = add16 b c := by
  unfold add16 U16 at *
  omega

theorem audioFastPath_next (q1 : RTP_AUDIO_QUEUE) (i : Nat) (p : PacketIn) :
    (audioFastPath q1 i p).q.nextRtpSequenceNumber = add16 p.rtp.sequenceNumber 1 := by
  unfold audioFastPath
  split
  · show (freeFecBlockHead (audioFastQueue q1 i p)).nextRtpSequenceNumber = _
    rw [(freeFecBlockHead_fields _).1]
    rfl
  · rfl

theorem addFecShard_ret_ne (env : Env) (q1 : RTP_AUDIO_QUEUE) (i : Nat) (p : PacketIn) :
    (addFecShard env q1 i p).ret ≠ .handleNow := by
  unfold addFecShard
  split
  · exact (finishAddPacket_ghost env _ i).2.2
  · simp

theorem addPacket_of_some {env : Env} {q q1 : RTP_AUDIO_QUEUE} {p : PacketIn} {i : Nat}
    (hic : q.incompatibleServer = false)
    (hg : getFecBlockForRtpPacket env q p = (q1, some i)) :
    RtpaAddPacket env q p =
      (if (p.rtp.packetType == RTP_PAYLOAD_TYPE_AUDIO) = true
        then addAudioDataShard env q1 i p else addFecShard env q1 i p) := by
  unfold RtpaAddPacket
  rw [if_neg (by simp [hic]), hg]

theorem getFecBlock_next_of_some {env : Env} {q q1 : RTP_AUDIO_QUEUE} {p : PacketIn} {i : Nat}
    (hg : getFecBlockForRtpPacket env q p = (q1, some i)) :
    q1.nextRtpSequenceNumber = q.nextRtpSequenceNumber := by
  obtain ⟨id, hd, hl⟩ := getFecBlock_some_decomp hg
  have h2 := (lookupBlock_some (show (lookupBlock env.nowMs (oosTrack q p) id).2 = some i by
    rw [hl])).1
  rw [hl] at h2
  have h3 : q1.nextRtpSequenceNumber = (oosTrack q p).nextRtpSequenceNumber :=
    (congrArg RTP_AUDIO_QUEUE.nextRtpSequenceNumber h2).trans rfl
  rw [h3]
  exact (oosTrack_fields q p).2.1

theorem emitReadyCons_spec {q : RTP_AUDIO_QUEUE} {n : Nat} {h : RTPA_FEC_BLOCK}
    {t : List RTPA_FEC_BLOCK} (hwfh : BlockWf h)
    (hidx : h.nextDataPacketIndex < RTPA_DATA_SHARDS)
    (hl : q.blockList = h :: t) (hready : queueHasPacketReady q = true) :
    (emitReadyCons q n h t).q.nextRtpSequenceNumber = add16 q.nextRtpSequenceNumber 1 ∧
    ∀ (hdr : RTP_PACKET) (len : Nat), (emitReadyCons q n h t).res = .dataPacket hdr len →
      hdr.sequenceNumber = U16 q.nextRtpSequenceNumber := by
  unfold queueHasPacketReady at hready
  rw [hl] at hready
  rw [Bool.and_eq_true] at hready
  have hmark : getMark h h.nextDataPacketIndex = 0 := eq_of_beq hready.1
  have hsum : U16 h.baseSequenceNumber + h.nextDataPacketIndex =
      U16 q.nextRtpSequenceNumber := eq_of_beq hready.2
  have hseq : (h.dataPackets.getD h.nextDataPacketIndex defaultRtpPacket).sequenceNumber =
      add16 h.baseSequenceNumber h.nextDataPacketIndex :=
    hwfh.seq_ok h.nextDataPacketIndex hidx hmark
  have hval : add16 h.baseSequenceNumber h.nextDataPacketIndex =
      U16 q.nextRtpSequenceNumber := by
    unfold add16 U16 at hsum ⊢
    omega
  constructor
  · unfold emitReadyCons
    split
    · show (freeFecBlockHead (advanceHead q h t)).nextRtpSequenceNumber = _
      rw [(freeFecBlockHead_fields _).1]
      rfl
    · rfl
  · intro hdr len hres
    unfold emitReadyCons at hres
    have hhdr : hdr = h.dataPackets.getD h.nextDataPacketIndex defaultRtpPacket := by
      split at hres
      · cases hres; rfl
      · cases hres; rfl
    rw [hhdr, hseq, hval]

theorem emitReadyPacket_spec {q : RTP_AUDIO_QUEUE} {n : Nat} (hwf : QueueWf q)
    (hidx : ∀ b ∈ q.blockList, b.nextDataPacketIndex < RTPA_DATA_SHARDS) :
    ((emitReadyPacket q n).res ≠ .noPacket →
      (emitReadyPacket q n).q.nextRtpSequenceNumber = add16 q.nextRtpSequenceNumber 1) ∧
    ∀ (hdr : RTP_PACKET) (len : Nat), (emitReadyPacket q n).res = .dataPacket hdr len →
      hdr.sequenceNumber = U16 q.nextRtpSequenceNumber := by
  unfold emitReadyPacket
  by_cases hr : queueHasPacketReady q = true
  · rw [if_pos hr]
    rcases hl : q.blockList with _ | ⟨h, t⟩
    · constructor
      · intro hres
        exact absurd rfl hres
      · intro hdr len hres
        exact absurd hres (by simp)
    · have hs := @emitReadyCons_spec q n h t
        (hwf h (by rw [hl]; exact List.mem_cons_self _ _))
        (hidx h (by rw [hl]; exact List.mem_cons_self _ _)) hl hr
      exact ⟨fun _ => hs.1, hs.2⟩
  · rw [if_neg hr]
    constructor
    · intro hres
      exact absurd rfl hres
    · intro hdr len hres
      exact absurd hres (by simp)

/-- C1 (amended): in a compatible-server session every emission occupies
exactly the sequence slot nextRtpSequenceNumber at call entry and advances
it by exactly one modulo 2^16: a HANDLE_NOW fast-path return carries the
packet whose 16-bit sequence number equals nextRtpSequenceNumber, and
from every reachable state in which every listed block still has
nextDataPacketIndex < D (the normal case; the fast-path-against-a-non-head
-block anomaly of claims C4/C10 is the one way to break it, and there
GetQueuedPacket reads a parity mark and can emit a wrong-sequence packet),
a successful GetQueuedPacket return (data packet or placeholder) advances
nextRtpSequenceNumber by one with the returned data packet carrying
sequence number equal to nextRtpSequenceNumber at entry.  Consecutive
emissions therefore differ by one except where the timeout policy moves
nextRtpSequenceNumber between emissions (see the counterexample). -/
theorem claim_C1_amended :
    (∀ (env : Env) (q : RTP_AUDIO_QUEUE) (p : PacketIn),
      q.incompatibleServer = false →
      (RtpaAddPacket env q p).ret = .handleNow →
      U16 p.rtp.sequenceNumber = U16 q.nextRtpSequenceNumber ∧
      (RtpaAddPacket env q p).q.nextRtpSequenceNumber =
        add16 q.nextRtpSequenceNumber 1) ∧
    (∀ q : RTP_AUDIO_QUEUE, Reach q →
      (∀ b ∈ q.blockList, b.nextDataPacketIndex < RTPA_DATA_SHARDS) →
      ((RtpaGetQueuedPacket q).res ≠ .noPacket →
        (RtpaGetQueuedPacket q).q.nextRtpSequenceNumber =
          add16 q.nextRtpSequenceNumber 1) ∧
      (∀ (hdr : RTP_PACKET) (len : Nat),
        (RtpaGetQueuedPacket q).res = .dataPacket hdr len →
        hdr.sequenceNumber = U16 q.nextRtpSequenceNumber)) := by
  constructor
  · intro env q p hic hr
    rcases hg : getFecBlockForRtpPacket env q p with ⟨q1, oi⟩
    rcases oi with _ | i
    · rw [addPacket_of_none hic hg] at hr
      exact absurd hr (by simp)
    · rw [addPacket_of_some hic hg] at hr ⊢
      have hnext := getFecBlock_next_of_some hg
      by_cases hpt : (p.rtp.packetType == RTP_PAYLOAD_TYPE_AUDIO) = true
      · rw [if_pos hpt] at hr ⊢
        unfold addAudioDataShard at hr ⊢
        by_cases hm : getMark (blockAt q1.blockList i)
            (sub16 p.rtp.sequenceNumber (blockAt q1.blockList i).baseSequenceNumber) ≠ 0
        · rw [if_pos hm] at hr ⊢
          by_cases hfast : (U16 p.rtp.sequenceNumber == U16 q1.nextRtpSequenceNumber) = true
          · rw [if_pos hfast] at hr ⊢
            have hf2 : U16 p.rtp.sequenceNumber = U16 q.nextRtpSequenceNumber := by
              have := eq_of_beq hfast
              rw [← hnext]
              exact this
            refine ⟨hf2, ?_⟩
            rw [audioFastPath_next]
            exact add16_congr_left hf2 1
          · rw [if_neg hfast] at hr
            exact absurd hr (finishAddPacket_ghost env _ i).2.2
        · rw [if_neg hm] at hr
          exact absurd hr (by simp)
      · rw [if_neg hpt] at hr
        exact absurd hr (addFecShard_ret_ne env q1 i p)
  · intro q hreach hidx
    have hwf := reach_wf hreach
    unfold RtpaGetQueuedPacket
    rcases hl : q.blockList with _ | ⟨h, t⟩
    · exact emitReadyPacket_spec hwf hidx
    · have hhi : h.nextDataPacketIndex < RTPA_DATA_SHARDS :=
        hidx h (by rw [hl]; exact List.mem_cons_self _ _)
      show ((if h.allowDiscontinuity = true then
          (if getMark h h.nextDataPacketIndex ≠ 0 then emitPlaceholderCons q h t
           else if (h.nextDataPacketIndex == RTPA_DATA_SHARDS) = true then
             emitReadyPacket (freeFecBlockHead q) 1
           else emitReadyPacket q 0)
          else emitReadyPacket q 0).res ≠ .noPacket →
          (if h.allowDiscontinuity = true then
          (if getMark h h.nextDataPacketIndex ≠ 0 then emitPlaceholderCons q h t
           else if (h.nextDataPacketIndex == RTPA_DATA_SHARDS) = true then
             emitReadyPacket (freeFecBlockHead q) 1
           else emitReadyPacket q 0)
          else emitReadyPacket q 0).q.nextRtpSequenceNumber =
            add16 q.nextRtpSequenceNumber 1) ∧
        (∀ (hdr : RTP_PACKET) (len : Nat),
          (if h.allowDiscontinuity = true then
          (if getMark h h.nextDataPacketIndex ≠ 0 then emitPlaceholderCons q h t
           else if (h.nextDataPacketIndex == RTPA_DATA_SHARDS) = true then
             emitReadyPacket (freeFecBlockHead q) 1
           else emitReadyPacket q 0)
          else emitReadyPacket q 0).res = .dataPacket hdr len →
          hdr.sequenceNumber = U16 q.nextRtpSequenceNumber)
      by_cases hdisc : h.allowDiscontinuity = true
      · rw [if_pos hdisc]
        by_cases hm : getMark h h.nextDataPacketIndex ≠ 0
        · rw [if_pos hm]
          constructor
          · intro _
            unfold emitPlaceholderCons
            split
            · show (freeFecBlockHead (advanceHead q h t)).nextRtpSequenceNumber = _
              rw [(freeFecBlockHead_fields _).1]
              rfl
            · rfl
          · intro hdr len hres
            unfold emitPlaceholderCons at hres
            split at hres
            · exact absurd hres (by simp)
            · exact absurd hres (by simp)
        · rw [if_neg hm]
          by_cases hD : (h.nextDataPacketIndex == RTPA_DATA_SHARDS) = true
          · have := eq_of_beq hD
            omega
          · rw [if_neg hD]
            exact emitReadyPacket_spec hwf hidx
      · rw [if_neg hdisc]
        exact emitReadyPacket_spec hwf hidx

/-- C1 counterexample: in the reachable state qSkipAt 7 the previous
emission was the fast-path delivery of data packet 11 (so the next emitted
sequence number would have to be 12 for the spec sentence to hold), yet
RtpaGetQueuedPacket emits the data packet with sequence number 16: the
timeout policy skipped the whole missing block 12..15, so consecutive
emissions are not always previous + 1 mod 2^16. -/
theorem claim_C1_counterexample :
    Reach (qSkipAt 7) ∧
    (RtpaAddPacket (envT 0) (qSkipAt 4) (dataPkt 11)).ret = .handleNow ∧
    qSkipAt 5 = (RtpaAddPacket (envT 0) (qSkipAt 4) (dataPkt 11)).q ∧
    (RtpaGetQueuedPacket (qSkipAt 7)).res =
      .dataPacket { header := 128, packetType := 97, sequenceNumber := 16,
                    timestamp := 80, ssrc := 3735928559 } 112 ∧
    U16 ((dataPkt 11).rtp.sequenceNumber + 1) ≠ 16 := by
  refine ⟨?_, by decide, by decide, by decide, by decide⟩
  exact reach_runOps (skipOps.take 7) _ Reach.init (by decide)

/-- C1 witness: the amended per-emission properties instantiated on
concrete reachable states - the fast-path acceptance of packet 8 in
qInOrder, and a GetQueuedPacket call on qReadyPre that emits packet 4. -/
theorem claim_C1_amended_witness :
    (U16 (dataPkt 8).rtp.sequenceNumber = U16 qInOrder.nextRtpSequenceNumber ∧
     (RtpaAddPacket (envT 0) qInOrder (dataPkt 8)).q.nextRtpSequenceNumber =
       add16 qInOrder.nextRtpSequenceNumber 1) ∧
    (RtpaGetQueuedPacket qReadyPre).q.nextRtpSequenceNumber =
      add16 qReadyPre.nextRtpSequenceNumber 1 :=
  ⟨claim_C1_amended.1 (envT 0) qInOrder (dataPkt 8) (by decide) (by decide),
   (claim_C1_amended.2 qReadyPre (reach_runOps readyOps _ Reach.init (by decide))
     (by decide)).1 (by decide)⟩

/-! ## In-bounds shard positions (claim C9) -/

theorem pair_of_snd {α β : Type} {x : α × β} {b : β} (h : x.2 = b) : x = (x.1, b) := by
  rw [← h]

theorem getFecBlock_some_decomp2 {env : Env} {q : RTP_AUDIO_QUEUE} {p : PacketIn} {i : Nat}
    (hg : (getFecBlockForRtpPacket env q p).2 = some i) :
    ∃ id, deriveBlockId env.audioPacketDuration p = some id ∧
      lookupBlock env.nowMs (oosTrack q p) id = getFecBlockForRtpPacket env q p := by
  unfold getFecBlockForRtpPacket at hg ⊢
  rcases hd : deriveBlockId env.audioPacketDuration p with _ | id
  · rw [hd] at hg
    exact Option.noConfusion hg
  · exact ⟨id, rfl, rfl⟩

theorem sub16_eq_of_U16_eq {b c : Nat} (h : U16 b = U16 c) (a : Nat) :
    sub16 a b = sub16 a c := by
  unfold sub16
  rw [h]

/-- C9: every audio data packet that the block lookup admits lands in a
block whose base sequence number is 16-bit-equal to (seq / D) * D, so the
shard position seq - base (mod 2^16) is strictly below D and the marks and
dataPackets accesses of RtpaAddPacket stay in bounds. -/
theorem claim_C9 : ∀ (env : Env) (q : RTP_AUDIO_QUEUE) (p : PacketIn) (i : Nat),
    (p.rtp.packetType == RTP_PAYLOAD_TYPE_AUDIO) = true →
    (getFecBlockForRtpPacket env q p).2 = some i →
    i < (getFecBlockForRtpPacket env q p).1.blockList.length ∧
    U16 (blockAt (getFecBlockForRtpPacket env q p).1.blockList i).baseSequenceNumber =
      U16 p.rtp.sequenceNumber / RTPA_DATA_SHARDS * RTPA_DATA_SHARDS ∧
    sub16 p.rtp.sequenceNumber
      (blockAt (getFecBlockForRtpPacket env q p).1.blockList i).baseSequenceNumber <
      RTPA_DATA_SHARDS := by
  intro env q p i hpt hg
  obtain ⟨id, hd, hlook⟩ := getFecBlock_some_decomp2 hg
  have h2 := lookupBlock_some
    (show (lookupBlock env.nowMs (oosTrack q p) id).2 = some i by rw [hlook]; exact hg)
  rw [hlook] at h2
  have hida := (deriveBlockId_audio hpt hd).1
  have hbase : U16 (blockAt (getFecBlockForRtpPacket env q p).1.blockList i).baseSequenceNumber =
      U16 p.rtp.sequenceNumber / RTPA_DATA_SHARDS * RTPA_DATA_SHARDS := by
    rw [h2.2.2.1, hida]
    exact U16_of_lt (by
      have := U16_lt p.rtp.sequenceNumber
      rw [RTPA_DATA_SHARDS_eq]
      omega)
  refine ⟨h2.2.1, hbase, ?_⟩
  have hb2 : U16 (blockAt (getFecBlockForRtpPacket env q p).1.blockList i).baseSequenceNumber =
      U16 (U16 p.rtp.sequenceNumber / RTPA_DATA_SHARDS * RTPA_DATA_SHARDS) := by
    rw [hbase]
    exact (U16_of_lt (by
      have := U16_lt p.rtp.sequenceNumber
      rw [RTPA_DATA_SHARDS_eq]
      omega)).symm
  rw [sub16_eq_of_U16_eq hb2, sub16_mod_shards, RTPA_DATA_SHARDS_eq]
  omega

/-- C9 witness: in the session synchronized at 8, packet seq 9 creates
block 8 and lands at shard position 1 < 4. -/
theorem claim_C9_witness :
    0 < (getFecBlockForRtpPacket (envT 0) qInOrder (dataPkt 9)).1.blockList.length ∧
    sub16 (dataPkt 9).rtp.sequenceNumber
      (blockAt (getFecBlockForRtpPacket (envT 0) qInOrder (dataPkt 9)).1.blockList 0).baseSequenceNumber <
      RTPA_DATA_SHARDS := by
  have h := claim_C9 (envT 0) qInOrder (dataPkt 9) 0 (by decide) (by decide)
  exact ⟨h.1, h.2.2⟩

/-! ## FEC recovery (claim C5) -/

/-- C5: when a block crosses the recovery threshold with a missing data
shard and the codec succeeds, completeFecBlock calls the codec once and
synthesises, for every data index whose mark was set, the RTP header with
version byte 0x80, the block's FEC payload type, sequence number base + i,
timestamp base + i * AudioPacketDuration and the block's ssrc, clearing all
data marks and leaving present shards untouched; when all D data shards
were received it succeeds without invoking the codec at all; and
RtpaAddPacket marks the block fullyReassembled exactly on success. -/
theorem claim_C5 :
    (∀ (env : Env) (b : RTPA_FEC_BLOCK), env.rsOk = true →
      RTPA_DATA_SHARDS ≤ b.dataShardsReceived + b.fecShardsReceived →
      (b.dataShardsReceived == RTPA_DATA_SHARDS) = false →
      completeFecBlock env b = (recoverBlock env.audioPacketDuration b, true, 1) ∧
      ∀ i, i < RTPA_DATA_SHARDS →
        (recoverBlock env.audioPacketDuration b).marks.getD i 1 = 0 ∧
        (getMark b i ≠ 0 →
          (recoverBlock env.audioPacketDuration b).dataPackets.getD i defaultRtpPacket =
            { header := 128, packetType := b.fecPayloadType,
              sequenceNumber := add16 b.baseSequenceNumber i,
              timestamp := U32 (b.baseTimestamp + i * env.audioPacketDuration),
              ssrc := b.ssrc }) ∧
        (getMark b i = 0 →
          (recoverBlock env.audioPacketDuration b).dataPackets.getD i defaultRtpPacket =
            b.dataPackets.getD i defaultRtpPacket)) ∧
    (∀ (env : Env) (b : RTPA_FEC_BLOCK), b.dataShardsReceived = RTPA_DATA_SHARDS →
      completeFecBlock env b = (b, true, 0)) ∧
    (∀ (env : Env) (q : RTP_AUDIO_QUEUE) (i : Nat), i < q.blockList.length →
      (completeFecBlock env (blockAt q.blockList i)).2.1 = true →
      (blockAt (applyCompletion env q i).1.blockList i).fullyReassembled = true) := by
  refine ⟨?_, ?_, ?_⟩
  · intro env b hrs hge hne
    have hc : completeFecBlock env b = (recoverBlock env.audioPacketDuration b, true, 1) := by
      unfold completeFecBlock
      rw [if_neg (by omega), if_neg (by simp [hne]), if_pos hrs]
    refine ⟨hc, ?_⟩
    intro i hi
    have hi6 : i < RTPA_TOTAL_SHARDS := by
      rw [RTPA_TOTAL_SHARDS_eq]
      rw [RTPA_DATA_SHARDS_eq] at hi
      omega
    refine ⟨?_, ?_, ?_⟩
    · show (((List.range RTPA_TOTAL_SHARDS).map fun j =>
        if j < RTPA_DATA_SHARDS then 0 else getMark b j)).getD i 1 = 0
      rw [getD_map_range _ _ i hi6, if_pos hi]
    · intro hgm
      show (((List.range RTPA_DATA_SHARDS).map fun j =>
        if getMark b j ≠ 0 then recoverDataPacket env.audioPacketDuration b j
        else b.dataPackets.getD j defaultRtpPacket)).getD i defaultRtpPacket = _
      rw [getD_map_range _ _ i hi, if_pos hgm]
      rfl
    · intro hgm
      show (((List.range RTPA_DATA_SHARDS).map fun j =>
        if getMark b j ≠ 0 then recoverDataPacket env.audioPacketDuration b j
        else b.dataPackets.getD j defaultRtpPacket)).getD i defaultRtpPacket = _
      rw [getD_map_range _ _ i hi, if_neg (by omega)]
  · intro env b hd4
    unfold completeFecBlock
    have h4 := RTPA_DATA_SHARDS_eq
    rw [if_neg (by omega), if_pos (by rw [hd4]; simp)]
  · intro env q i hlen hdone
    unfold applyCompletion
    show (blockAt (setBlockAt q.blockList i _) i).fullyReassembled = true
    rw [show ∀ b : RTPA_FEC_BLOCK, blockAt (setBlockAt q.blockList i b) i = b from
      fun b => getD_set_self q.blockList i hlen b _]
    rw [if_pos hdone]

/-- C5 witness: the block holding data shards 4, 5, 6 plus parity shard 0
crosses the threshold; the codec is invoked once and data mark 3 ends up
cleared with the synthesised header for sequence number 7. -/
theorem claim_C5_witness :
    completeFecBlock (envT 0) (storeFecShard (blockAt qCountPre.blockList 0) 0) =
      (recoverBlock 5 (storeFecShard (blockAt qCountPre.blockList 0) 0), true, 1) ∧
    (recoverBlock 5 (storeFecShard (blockAt qCountPre.blockList 0) 0)).marks.getD 3 1 = 0 ∧
    (getMark (storeFecShard (blockAt qCountPre.blockList 0) 0) 3 ≠ 0 →
      (recoverBlock 5 (storeFecShard (blockAt qCountPre.blockList 0) 0)).dataPackets.getD 3
          defaultRtpPacket =
        { header := 128,
          packetType := (storeFecShard (blockAt qCountPre.blockList 0) 0).fecPayloadType,
          sequenceNumber :=
            add16 (storeFecShard (blockAt qCountPre.blockList 0) 0).baseSequenceNumber 3,
          timestamp := U32 ((storeFecShard (blockAt qCountPre.blockList 0) 0).baseTimestamp +
            3 * 5),
          ssrc := (storeFecShard (blockAt qCountPre.blockList 0) 0).ssrc }) := by
  have h := claim_C5.1 (envT 0) (storeFecShard (blockAt qCountPre.blockList 0) 0)
    (by decide) (by decide) (by decide)
  exact ⟨h.1, (h.2 3 (by decide)).1, (h.2 3 (by decide)).2.1⟩

/-! ## Timeout policy (claim C6) -/

theorem discontinuityQueue_of_cons {q1 : RTP_AUDIO_QUEUE} {hd : RTPA_FEC_BLOCK}
    {t : List RTPA_FEC_BLOCK} (h : q1.blockList = hd :: t) :
    discontinuityQueue q1 = discontinuityQueueCons q1 hd t := by
  unfold discontinuityQueue
  rw [h]

theorem discontinuityQueueCons_spec (q1 : RTP_AUDIO_QUEUE) (hd : RTPA_FEC_BLOCK)
    (t : List RTPA_FEC_BLOCK) :
    (discontinuityQueueCons q1 hd t).blockList =
      { hd with allowDiscontinuity := true } :: t ∧
    (discontinuityQueueCons q1 hd t).nextRtpSequenceNumber =
      (if isBefore16 q1.nextRtpSequenceNumber hd.baseSequenceNumber then
        U16 hd.baseSequenceNumber else q1.nextRtpSequenceNumber) := by
  unfold discontinuityQueueCons
  by_cases hb : isBefore16 q1.nextRtpSequenceNumber hd.baseSequenceNumber
  · rw [if_pos hb, if_pos hb]
    exact ⟨rfl, rfl⟩
  · rw [if_neg hb, if_neg hb]
    exact ⟨rfl, rfl⟩

/-- C6 (amended: the constraint check runs only when no packet is already
emittable - queueHasPacketReady short-circuits it): after a non-fast-path
admission into block i, the head is declared lost exactly when no packet
is ready, the matched block is not the head, and enforceQueueConstraints
holds; enforceQueueConstraints on a nonempty queue is receivedOosData
false or elapsed time beyond D * AudioPacketDuration + RTPQ_OOS_WAIT_TIME_MS;
and the loss action sets the head's allowDiscontinuity and jumps
nextRtpSequenceNumber forward to the head's base when it was before it. -/
theorem claim_C6_amended :
    (∀ (env : Env) (q : RTP_AUDIO_QUEUE) (i : Nat),
      queueHasPacketReady (applyCompletion env q i).1 = false → i ≠ 0 →
      enforceQueueConstraints env (applyCompletion env q i).1 = true →
      finishAddPacket env q i =
        ⟨discontinuityQueue (applyCompletion env q i).1, .packetReady, 0,
          (applyCompletion env q i).2⟩) ∧
    (∀ (env : Env) (q : RTP_AUDIO_QUEUE) (i : Nat),
      (queueHasPacketReady (applyCompletion env q i).1 = true ∨ i = 0 ∨
        enforceQueueConstraints env (applyCompletion env q i).1 = false) →
      (finishAddPacket env q i).q = (applyCompletion env q i).1) ∧
    (∀ (env : Env) (q : RTP_AUDIO_QUEUE) (hd : RTPA_FEC_BLOCK)
        (t : List RTPA_FEC_BLOCK), q.blockList = hd :: t →
      (enforceQueueConstraints env q = true ↔
        (q.receivedOosData = false ∨
          U32 (U32 (env.audioPacketDuration * RTPA_DATA_SHARDS) + env.oosWaitTimeMs) <
            sub64 env.nowMs hd.queueTimeMs))) ∧
    (∀ (q1 : RTP_AUDIO_QUEUE) (hd : RTPA_FEC_BLOCK) (t : List RTPA_FEC_BLOCK),
      q1.blockList = hd :: t →
      (discontinuityQueue q1).blockList = { hd with allowDiscontinuity := true } :: t ∧
      (discontinuityQueue q1).nextRtpSequenceNumber =
        (if isBefore16 q1.nextRtpSequenceNumber hd.baseSequenceNumber then
          U16 hd.baseSequenceNumber else q1.nextRtpSequenceNumber)) := by
  refine ⟨?_, ?_, ?_, ?_⟩
  · intro env q i hready hi henf
    unfold finishAddPacket
    rw [if_neg (by rw [hready]; simp), if_pos (by rw [henf]; simp [hi])]
  · intro env q i hcase
    by_cases hready : queueHasPacketReady (applyCompletion env q i).1 = true
    · unfold finishAddPacket
      rw [if_pos hready]
    · unfold finishAddPacket
      rw [if_neg hready]
      rcases hcase with h | h | h
      · exact absurd h hready
      · rw [if_neg (by rw [h]; simp)]
      · rw [if_neg (by rw [h]; simp)]
  · intro env q hd t hbl
    unfold enforceQueueConstraints
    rw [hbl]
    simp [Bool.or_eq_true, Bool.not_eq_true']
  · intro q1 hd t hbl
    rw [discontinuityQueue_of_cons hbl]
    exact discontinuityQueueCons_spec q1 hd t

/-- C6 counterexample: in the reachable state qReadyPre the head block 4
holds an emittable packet; the late packet 8 is admitted into the non-head
block at index 1 while receivedOosData is false and the head block has been
queued far beyond the timeout bound, yet the head block is NOT declared
lost (allowDiscontinuity stays false): queueHasPacketReady pre-empts the
constraint check, which the claim does not allow for. -/
theorem claim_C6_counterexample :
    Reach qReadyPre ∧
    qReadyPre.receivedOosData = false ∧
    (blockAt qReadyPre.blockList 0).baseSequenceNumber = 4 ∧
    U32 (U32 ((envT 5000).audioPacketDuration * RTPA_DATA_SHARDS) +
        (envT 5000).oosWaitTimeMs) <
      sub64 (envT 5000).nowMs (blockAt qReadyPre.blockList 0).queueTimeMs ∧
    (getFecBlockForRtpPacket (envT 5000) qReadyPre (dataPkt 8)).2 = some 1 ∧
    (RtpaAddPacket (envT 5000) qReadyPre (dataPkt 8)).ret = .packetReady ∧
    (blockAt (RtpaAddPacket (envT 5000) qReadyPre (dataPkt 8)).q.blockList 0).baseSequenceNumber
      = 4 ∧
    (blockAt (RtpaAddPacket (envT 5000) qReadyPre (dataPkt 8)).q.blockList 0).allowDiscontinuity
      = false ∧
    (RtpaAddPacket (envT 5000) qReadyPre (dataPkt 8)).q.nextRtpSequenceNumber =
      qReadyPre.nextRtpSequenceNumber := by
  refine ⟨?_, by decide, by decide, by decide, by decide, by decide, by decide, by decide,
    by decide⟩
  exact reach_runOps readyOps _ Reach.init (by decide)

/-- C6 witness: the amended enforcement branch instantiated on the
reachable state qSkipAt 6 extended with data packet 20 - block 20 is
created at index 1, no packet is ready, receivedOosData is false, so the
head block 16 is declared lost. -/
theorem claim_C6_witness :
    finishAddPacket (envT 0) ((getFecBlockForRtpPacket (envT 0) (qSkipAt 6) (dataPkt 20)).1)
        1 =
      ⟨discontinuityQueue
          ((applyCompletion (envT 0)
            ((getFecBlockForRtpPacket (envT 0) (qSkipAt 6) (dataPkt 20)).1) 1).1),
        .packetReady, 0,
        ((applyCompletion (envT 0)
          ((getFecBlockForRtpPacket (envT 0) (qSkipAt 6) (dataPkt 20)).1) 1).2)⟩ ∧
    (enforceQueueConstraints (envT 0)
        (applyCompletion (envT 0)
          ((getFecBlockForRtpPacket (envT 0) (qSkipAt 6) (dataPkt 20)).1) 1).1 = true ↔
      ((applyCompletion (envT 0)
          ((getFecBlockForRtpPacket (envT 0) (qSkipAt 6) (dataPkt 20)).1) 1).1.receivedOosData
          = false ∨
        U32 (U32 ((envT 0).audioPacketDuration * RTPA_DATA_SHARDS) + (envT 0).oosWaitTimeMs) <
          sub64 (envT 0).nowMs
            (blockAt
              (applyCompletion (envT 0)
                ((getFecBlockForRtpPacket (envT 0) (qSkipAt 6) (dataPkt 20)).1) 1).1.blockList
              0).queueTimeMs)) := by
  constructor
  · exact claim_C6_amended.1 (envT 0)
      ((getFecBlockForRtpPacket (envT 0) (qSkipAt 6) (dataPkt 20)).1) 1
      (by decide) (by decide) (by decide)
  · have hbl : (applyCompletion (envT 0)
        ((getFecBlockForRtpPacket (envT 0) (qSkipAt 6) (dataPkt 20)).1) 1).1.blockList =
        blockAt (applyCompletion (envT 0)
            ((getFecBlockForRtpPacket (envT 0) (qSkipAt 6) (dataPkt 20)).1) 1).1.blockList 0 ::
          List.drop 1 (applyCompletion (envT 0)
            ((getFecBlockForRtpPacket (envT 0) (qSkipAt 6) (dataPkt 20)).1) 1).1.blockList := by
      decide
    exact claim_C6_amended.2.2.1 (envT 0) _ _ _ hbl

/-! ## Incompatible-server latch (claim C7) -/

theorem emitReadyCons_incompat (q : RTP_AUDIO_QUEUE) (n : Nat) (h : RTPA_FEC_BLOCK)
    (t : List RTPA_FEC_BLOCK) :
    (emitReadyCons q n h t).q.incompatibleServer = q.incompatibleServer := by
  unfold emitReadyCons
  split
  · show (freeFecBlockHead (advanceHead q h t)).incompatibleServer = _
    rw [(freeFecBlockHead_fields _).2.1]
    rfl
  · rfl

theorem emitReadyPacket_incompat (q : RTP_AUDIO_QUEUE) (n : Nat) :
    (emitReadyPacket q n).q.incompatibleServer = q.incompatibleServer := by
  unfold emitReadyPacket
  split
  · rcases q.blockList with _ | ⟨h, t⟩
    · rfl
    · exact emitReadyCons_incompat q n h t
  · rfl

theorem emitPlaceholderCons_incompat (q : RTP_AUDIO_QUEUE) (h : RTPA_FEC_BLOCK)
    (t : List RTPA_FEC_BLOCK) :
    (emitPlaceholderCons q h t).q.incompatibleServer = q.incompatibleServer := by
  unfold emitPlaceholderCons
  split
  · show (freeFecBlockHead (advanceHead q h t)).incompatibleServer = _
    rw [(freeFecBlockHead_fields _).2.1]
    rfl
  · rfl

theorem getQueued_incompat (q : RTP_AUDIO_QUEUE) :
    (RtpaGetQueuedPacket q).q.incompatibleServer = q.incompatibleServer := by
  unfold RtpaGetQueuedPacket
  rcases hl : q.blockList with _ | ⟨h, t⟩
  · exact emitReadyPacket_incompat q 0
  · show (if h.allowDiscontinuity = true then
        (if getMark h h.nextDataPacketIndex ≠ 0 then emitPlaceholderCons q h t
         else if (h.nextDataPacketIndex == RTPA_DATA_SHARDS) = true then
           emitReadyPacket (freeFecBlockHead q) 1
         else emitReadyPacket q 0)
        else emitReadyPacket q 0).q.incompatibleServer = q.incompatibleServer
    by_cases hdisc : h.allowDiscontinuity = true
    · rw [if_pos hdisc]
      by_cases hm : getMark h h.nextDataPacketIndex ≠ 0
      · rw [if_pos hm]
        exact emitPlaceholderCons_incompat q h t
      · rw [if_neg hm]
        by_cases hD : (h.nextDataPacketIndex == RTPA_DATA_SHARDS) = true
        · rw [if_pos hD, emitReadyPacket_incompat]
          exact (freeFecBlockHead_fields q).2.1
        · rw [if_neg hD]
          exact emitReadyPacket_incompat q 0
    · rw [if_neg hdisc]
      exact emitReadyPacket_incompat q 0

theorem lookupBlock_mismatch {now : Nat} {q1 : RTP_AUDIO_QUEUE} {id : FEC_BLOCK_ID}
    (h1 : (q1.synchronizing && (q1.oldestRtpBaseSequenceNumber == 0)) = false)
    (h2 : ¬ isBefore16 id.baseSequenceNumber q1.oldestRtpBaseSequenceNumber)
    (h3 : findFecBlock id.baseSequenceNumber id.blockSize q1.blockList = .mismatch) :
    lookupBlock now q1 id = ({ q1 with incompatibleServer := true }, none) := by
  unfold lookupBlock
  rw [if_neg (by rw [h1]; simp), if_neg h2, h3]

/-- C7: a stored block whose blockSize differs from the incoming packet's
derived block size produces the mismatch result; the mismatch latches
incompatibleServer and rejects the packet without other state change; once
latched, AddPacket passes audio data straight through with HANDLE_NOW,
returns 0 for everything else, and leaves the queue untouched; and neither
AddPacket nor GetQueuedPacket ever clears the flag. -/
theorem claim_C7 :
    (∀ (base bs : Nat) (b : RTPA_FEC_BLOCK) (rest : List RTPA_FEC_BLOCK),
      U16 b.baseSequenceNumber = U16 base → b.blockSize ≠ bs →
      findFecBlock base bs (b :: rest) = .mismatch) ∧
    (∀ (env : Env) (q : RTP_AUDIO_QUEUE) (p : PacketIn) (id : FEC_BLOCK_ID),
      q.incompatibleServer = false →
      deriveBlockId env.audioPacketDuration p = some id →
      ((oosTrack q p).synchronizing &&
        ((oosTrack q p).oldestRtpBaseSequenceNumber == 0)) = false →
      ¬ isBefore16 id.baseSequenceNumber (oosTrack q p).oldestRtpBaseSequenceNumber →
      findFecBlock id.baseSequenceNumber id.blockSize (oosTrack q p).blockList =
        .mismatch →
      RtpaAddPacket env q p =
        ⟨{ oosTrack q p with incompatibleServer := true }, .rejected, 0, 0⟩) ∧
    (∀ (env : Env) (q : RTP_AUDIO_QUEUE) (p : PacketIn),
      q.incompatibleServer = true →
      RtpaAddPacket env q p =
        ⟨q, (if (p.rtp.packetType == RTP_PAYLOAD_TYPE_AUDIO) = true then .handleNow
          else .rejected), 0, 0⟩) ∧
    (∀ q : RTP_AUDIO_QUEUE,
      (RtpaGetQueuedPacket q).q.incompatibleServer = q.incompatibleServer) := by
  refine ⟨?_, ?_, ?_, getQueued_incompat⟩
  · intro base bs b rest h1 h2
    show (if (U16 b.baseSequenceNumber == U16 base) = true then
        (if b.blockSize ≠ bs then FIND_RESULT.mismatch
         else if b.fullyReassembled = true then .completedDup else .found 0)
      else if isBefore16 base b.baseSequenceNumber then .insertAt 0
      else bumpFind (findFecBlock base bs rest)) = .mismatch
    rw [if_pos (by rw [h1]; simp), if_pos h2]
  · intro env q p id hic hd h1 h2 h3
    have hg : getFecBlockForRtpPacket env q p =
        ({ oosTrack q p with incompatibleServer := true }, none) := by
      unfold getFecBlockForRtpPacket
      rw [hd]
      show lookupBlock env.nowMs (oosTrack q p) id = _
      exact lookupBlock_mismatch h1 h2 h3
    exact addPacket_of_none hic hg
  · intro env q p hic
    unfold RtpaAddPacket
    rw [if_pos hic]

/-- C7 witness: the state qInOrder2 holds block 8 with blockSize 100; the
audio data packet seq 9 of wire length 132 derives blockSize 120, latching
incompatibleServer; the next in-order data packet then passes straight
through and a GetQueuedPacket call keeps the flag. -/
theorem claim_C7_witness :
    findFecBlock 8 120 qInOrder2.blockList = .mismatch ∧
    RtpaAddPacket (envT 0) qInOrder2 (dataPktLen 9 132) =
      ⟨{ oosTrack qInOrder2 (dataPktLen 9 132) with incompatibleServer := true },
        .rejected, 0, 0⟩ ∧
    RtpaAddPacket (envT 0)
        (RtpaAddPacket (envT 0) qInOrder2 (dataPktLen 9 132)).q (dataPkt 12) =
      ⟨(RtpaAddPacket (envT 0) qInOrder2 (dataPktLen 9 132)).q,
        (if ((dataPkt 12).rtp.packetType == RTP_PAYLOAD_TYPE_AUDIO) = true then .handleNow
          else .rejected), 0, 0⟩ ∧
    (RtpaGetQueuedPacket
        (RtpaAddPacket (envT 0) qInOrder2 (dataPktLen 9 132)).q).q.incompatibleServer =
      (RtpaAddPacket (envT 0) qInOrder2 (dataPktLen 9 132)).q.incompatibleServer := by
  refine ⟨?_, ?_, ?_, ?_⟩
  · have h1 := claim_C7.1 8 120 (blockAt qInOrder2.blockList 0)
      (List.drop 1 qInOrder2.blockList) (by decide) (by decide)
    have hl : qInOrder2.blockList =
        blockAt qInOrder2.blockList 0 :: List.drop 1 qInOrder2.blockList := by decide
    rw [hl]
    exact h1
  · exact claim_C7.2.1 (envT 0) qInOrder2 (dataPktLen 9 132)
      ⟨97, 8, 40, 3735928559, 120⟩ (by decide) (by decide) (by decide) (by decide)
      (by decide)
  · exact claim_C7.2.2.1 (envT 0) _ (dataPkt 12) (by decide)
  · exact claim_C7.2.2.2 _

/-! ## Duplicate shards (claim C8) -/

/-- C8 (amended: a duplicate is dropped with return 0 and leaves the block
list and all per-block state unchanged, but the out-of-sequence tracking
step that precedes the lookup may still rewrite receivedOosData and
lastOosSequenceNumber for audio data packets): a duplicate audio data
shard yields exactly the OOS-tracked queue with return 0; a duplicate
parity shard leaves the whole queue unchanged with return 0; and feeding
the same in-order data packet twice yields HANDLE_NOW then 0 with no state
change at all on the second call. -/
theorem claim_C8_amended :
    (∀ (env : Env) (q : RTP_AUDIO_QUEUE) (p : PacketIn) (i : Nat),
      q.incompatibleServer = false →
      (p.rtp.packetType == RTP_PAYLOAD_TYPE_AUDIO) = true →
      getFecBlockForRtpPacket env q p = (oosTrack q p, some i) →
      getMark (blockAt (oosTrack q p).blockList i)
        (sub16 p.rtp.sequenceNumber
          (blockAt (oosTrack q p).blockList i).baseSequenceNumber) = 0 →
      RtpaAddPacket env q p = ⟨oosTrack q p, .rejected, 0, 0⟩) ∧
    (∀ (env : Env) (q : RTP_AUDIO_QUEUE) (p : PacketIn) (i : Nat),
      q.incompatibleServer = false →
      (p.rtp.packetType == RTP_PAYLOAD_TYPE_AUDIO) = false →
      getFecBlockForRtpPacket env q p = (q, some i) →
      getMark (blockAt q.blockList i) (RTPA_DATA_SHARDS + p.fec.fecShardIndex) = 0 →
      RtpaAddPacket env q p = ⟨q, .rejected, 0, 0⟩) ∧
    ((RtpaAddPacket (envT 0) qInOrder (dataPkt 8)).ret = .handleNow ∧
      RtpaAddPacket (envT 0) qInOrder2 (dataPkt 8) =
        ⟨qInOrder2, .rejected, 0, 0⟩) := by
  refine ⟨?_, ?_, by decide, by decide⟩
  · intro env q p i hic hpt hg hm
    rw [addPacket_of_some hic hg, if_pos hpt]
    unfold addAudioDataShard
    rw [if_neg (by rw [hm]; simp)]
  · intro env q p i hic hpt hg hm
    rw [addPacket_of_some hic hg, if_neg (by rw [hpt]; simp)]
    unfold addFecShard
    rw [if_neg (by rw [hm]; simp)]

/-- C8 counterexample: in the reachable state qDupPre the out-of-sequence
flag is set with lastOosSequenceNumber 65534 already 16-bit-before
oldestRtpBaseSequenceNumber 32772; re-feeding the duplicate data packet
52768 (its mark is already 0) returns 0 as claimed but flips
receivedOosData back to false, so the queue state does change. -/
theorem claim_C8_counterexample :
    Reach qDupPre ∧
    qDupPre.receivedOosData = true ∧
    getMark (blockAt (oosTrack qDupPre (dataPkt 52768)).blockList 0)
      (sub16 (dataPkt 52768).rtp.sequenceNumber
        (blockAt (oosTrack qDupPre (dataPkt 52768)).blockList 0).baseSequenceNumber) = 0 ∧
    getFecBlockForRtpPacket (envT 4000) qDupPre (dataPkt 52768) =
      (oosTrack qDupPre (dataPkt 52768), some 0) ∧
    (RtpaAddPacket (envT 4000) qDupPre (dataPkt 52768)).ret = .rejected ∧
    (RtpaAddPacket (envT 4000) qDupPre (dataPkt 52768)).q.receivedOosData = false ∧
    (RtpaAddPacket (envT 4000) qDupPre (dataPkt 52768)).q ≠ qDupPre := by
  have h2 : qDupPre.receivedOosData = true := by decide
  have h5 : (RtpaAddPacket (envT 4000) qDupPre (dataPkt 52768)).q.receivedOosData = false := by
    decide
  refine ⟨?_, h2, by decide, by decide, by decide, h5, ?_⟩
  · exact reach_runOps dupOps _ Reach.init (by decide)
  · intro heq
    rw [heq, h2] at h5
    exact Bool.noConfusion h5

/-- C8 witness: the amended duplicate properties instantiated on a
duplicate of the in-order data packet 8 in qInOrder2, a duplicate parity
shard 0 of block 4, and the first acceptance of data packet 8. -/
theorem claim_C8_amended_witness :
    RtpaAddPacket (envT 0) qInOrder2 (dataPkt 8) =
      ⟨oosTrack qInOrder2 (dataPkt 8), .rejected, 0, 0⟩ ∧
    RtpaAddPacket (envT 0)
        (RtpaAddPacket (envT 0) (runOps RtpaInitializeQueue (countOps.take 1))
          (fecPkt 4 20 0)).q (fecPkt 4 20 0) =
      ⟨(RtpaAddPacket (envT 0) (runOps RtpaInitializeQueue (countOps.take 1))
          (fecPkt 4 20 0)).q, .rejected, 0, 0⟩ ∧
    (RtpaAddPacket (envT 0) qInOrder (dataPkt 8)).ret = .handleNow :=
  ⟨claim_C8_amended.1 (envT 0) qInOrder2 (dataPkt 8) 0 (by decide) (by decide)
      (by decide) (by decide),
   claim_C8_amended.2.1 (envT 0) _ (fecPkt 4 20 0) 0 (by decide) (by decide)
      (by decide) (by decide),
   claim_C8_amended.2.2.1⟩

/-! ## Fast path against a non-head block (claim C4) -/

/-- C4: in the reachable state qOverlapAt 7 the head is the FEC-originated
block with base 9 and the in-order data packet 12 matches the block at
index 1; the fast path accepts it with HANDLE_NOW and no codec call, but
increments nextDataPacketIndex of the NON-head block 12 while the head
block 9 stays at index 3 - contradicting the claim (and the source's own
LC_ASSERT(fecBlock == queue->blockHead), compiled out in release builds)
that the fast path advances the head block. -/
theorem claim_C4_bug :
    Reach (qOverlapAt 7) ∧
    U16 (dataPkt 12).rtp.sequenceNumber = U16 (qOverlapAt 7).nextRtpSequenceNumber ∧
    (blockAt (qOverlapAt 7).blockList 0).baseSequenceNumber = 9 ∧
    (blockAt (qOverlapAt 7).blockList 1).baseSequenceNumber = 12 ∧
    (getFecBlockForRtpPacket (envT 0) (qOverlapAt 7) (dataPkt 12)).2 = some 1 ∧
    (RtpaAddPacket (envT 0) (qOverlapAt 7) (dataPkt 12)).ret = .handleNow ∧
    (RtpaAddPacket (envT 0) (qOverlapAt 7) (dataPkt 12)).rsCalls = 0 ∧
    (blockAt (qOverlapAt 7).blockList 0).nextDataPacketIndex = 3 ∧
    (blockAt (RtpaAddPacket (envT 0) (qOverlapAt 7)
        (dataPkt 12)).q.blockList 0).nextDataPacketIndex = 3 ∧
    (blockAt (RtpaAddPacket (envT 0) (qOverlapAt 7)
        (dataPkt 12)).q.blockList 1).nextDataPacketIndex = 1 := by
  refine ⟨?_, by decide, by decide, by decide, by decide, by decide, by decide, by decide,
    by decide, by decide⟩
  exact reach_runOps (overlapOps.take 7) _ Reach.init (by decide)

/-! ## Drained blocks left on the list (claim C10) -/

/-- C10: in the reachable state qOverlapAt 11 - reached by draining block
12 through the fast path while the overlapping FEC-originated block 9 was
the head - the block with base 12 is still on the list at exit of the
public call with nextDataPacketIndex = D, so the claimed invariant
nextDataPacketIndex < D is violated (the free went to the head block 9
instead of the drained block). -/
theorem claim_C10_bug :
    Reach (qOverlapAt 11) ∧
    (RtpaAddPacket (envT 0) (qOverlapAt 10) (dataPkt 15)).q = qOverlapAt 11 ∧
    (RtpaAddPacket (envT 0) (qOverlapAt 10) (dataPkt 15)).freed = 1 ∧
    (blockAt (qOverlapAt 11).blockList 0).baseSequenceNumber = 12 ∧
    (blockAt (qOverlapAt 11).blockList 0).nextDataPacketIndex = RTPA_DATA_SHARDS ∧
    ¬ ((blockAt (qOverlapAt 11).blockList 0).nextDataPacketIndex < RTPA_DATA_SHARDS) ∧
    blockAt (qOverlapAt 11).blockList 0 ∈ (qOverlapAt 11).blockList := by
  refine ⟨?_, by decide, by decide, by decide, by decide, by decide, by decide⟩
  exact reach_runOps (overlapOps.take 11) _ Reach.init (by decide)

end RtpAudio
